import Mathlib

set_option autoImplicit false

/-!
Verification of the persephone-client-py library: a shallow embedding of
`src/persephone_client/__init__.py` (classes `PersephoneClient` and
`PersephoneBuildHelper`) together with the parts of its collaborators that the
library's behaviour depends on: `urllib.parse.urljoin` (CPython 3.11),
`json.dumps` (default options), and `requests`' `Response.raise_for_status`.

Modelling conventions:
* Python values that flow into JSON bodies (`commit_hash`, `build_id`, ...) are
  modelled by `JsonValue`; the Python value `None` is `JsonValue.null`.
  JSON numbers are modelled as integers (no claim involves floats).
* Network I/O is modelled by passing an oracle `server : HttpRequest → HttpResponse`;
  each operation returns its result together with the list of requests it issued.
* Exceptions are modelled with `Except`: raising propagates, leaving state as-is.
-/

/-- A Python value that is JSON serializable.  `null` doubles as Python `None`. -/
inductive JsonValue where
  | null
  | bool (b : Bool)
  | num (n : Int)
  | str (s : String)
  | arr (elems : List JsonValue)
  | obj (members : List (String × JsonValue))

/-- Lower-case hex digit, as produced by Python's `'%04x'` formatting. -/
def hexDigitChar (n : Nat) : Char :=
  if n < 10 then Char.ofNat (48 + n) else Char.ofNat (87 + n % 16)

/-- Four lower-case hex digits (`'%04x' % n` for `n < 0x10000`). -/
def hex4 (n : Nat) : String :=
  String.mk [hexDigitChar (n / 4096 % 16), hexDigitChar (n / 256 % 16),
    hexDigitChar (n / 16 % 16), hexDigitChar (n % 16)]

/-- One character of `json.encoder.py_encode_basestring_ascii` (the escaping used
by `json.dumps` with its default `ensure_ascii=True`). -/
def jsonEscapeChar (c : Char) : String :=
  if c = '"' then "\\\""
  else if c = '\\' then "\\\\"
  else if c = '\x08' then "\\b"
  else if c = '\x0c' then "\\f"
  else if c = '\n' then "\\n"
  else if c = '\r' then "\\r"
  else if c = '\t' then "\\t"
  else if 0x20 ≤ c.toNat ∧ c.toNat ≤ 0x7e then String.mk [c]
  else if c.toNat < 0x10000 then "\\u" ++ hex4 c.toNat
  else
    let n := c.toNat - 0x10000
    "\\u" ++ hex4 (0xd800 + n / 0x400) ++ "\\u" ++ hex4 (0xdc00 + n % 0x400)

/-- A JSON string literal as written by `json.dumps`. -/
def jsonQuote (s : String) : String :=
  "\"" ++ String.join (s.toList.map jsonEscapeChar) ++ "\""

mutual

/-- Python's `json.dumps(v)` with default arguments (separators `', '` and `': '`,
`ensure_ascii=True`). -/
def jsonDumps : JsonValue → String
  | JsonValue.null => "null"
  | JsonValue.bool true => "true"
  | JsonValue.bool false => "false"
  | JsonValue.num n => toString n
  | JsonValue.str s => jsonQuote s
  | JsonValue.arr xs => "[" ++ jsonDumpsElems xs ++ "]"
  | JsonValue.obj kvs => "\x7b" ++ jsonDumpsMembers kvs ++ "\x7d"

/-- Array elements joined by `', '`. -/
def jsonDumpsElems : List JsonValue → String
  | [] => ""
  | [x] => jsonDumps x
  | x :: y :: xs => jsonDumps x ++ ", " ++ jsonDumpsElems (y :: xs)

/-- Object members `key: value` joined by `', '`. -/
def jsonDumpsMembers : List (String × JsonValue) → String
  | [] => ""
  | [(k, v)] => jsonQuote k ++ ": " ++ jsonDumps v
  | (k, v) :: m :: kvs => jsonQuote k ++ ": " ++ jsonDumps v ++ ", " ++ jsonDumpsMembers (m :: kvs)

end

/-!
## `urllib.parse` (CPython 3.11)

Translated from `/usr/local/lib/python3.11/urllib/parse.py`, specialised to
`str` inputs and `allow_fragments=True` (the library always uses the defaults).
Not modelled (no claim exercises them, and all inputs in the theorems below
avoid them): the `ValueError`s raised for bracketed IPv6 hosts and the
NFKC-normalisation check `_checknetloc` (both only fire on `[`/`]` or
non-ASCII netlocs).  Strings are handled as `List Char`.
-/

/-- Membership of `_WHATWG_C0_CONTROL_OR_SPACE` (codepoints `0x00`–`0x20`). -/
def isC0OrSpace (c : Char) : Bool := c.toNat ≤ 0x20

/-- Membership of `_UNSAFE_URL_BYTES_TO_REMOVE` (tab, CR, LF). -/
def isUnsafeUrlByte (c : Char) : Bool := c == '\t' || c == '\r' || c == '\n'

/-- `url.lstrip(_WHATWG_C0_CONTROL_OR_SPACE)` followed by removal of the unsafe
bytes, as done by `urlsplit` on its `url` argument. -/
def cleanUrl (l : List Char) : List Char :=
  (l.dropWhile isC0OrSpace).filter (fun c => !isUnsafeUrlByte c)

/-- `scheme.strip(_WHATWG_C0_CONTROL_OR_SPACE)` followed by removal of the unsafe
bytes, as done by `urlsplit` on its `scheme` argument. -/
def cleanScheme (l : List Char) : List Char :=
  ((((l.dropWhile isC0OrSpace).reverse).dropWhile isC0OrSpace).reverse).filter
    (fun c => !isUnsafeUrlByte c)

/-- Membership of `urllib.parse.scheme_chars`. -/
def isSchemeChar (c : Char) : Bool :=
  c.isAlpha || c.isDigit || c == '+' || c == '-' || c == '.'

/-- `url[0].isascii() and url[0].isalpha()` (Lean's `Char.isAlpha` is the
ASCII-only test, which is exactly this conjunction). -/
def headIsAsciiAlpha : List Char → Bool
  | [] => false
  | c :: _ => c.isAlpha

/-- The scheme-splitting step of `urlsplit`: if the text before the first `':'`
is a well-formed scheme, split it off (lower-cased); otherwise keep the default. -/
def splitSchemeL (url dscheme : List Char) : List Char × List Char :=
  match List.findIdx? (fun c => c == ':') url with
  | some i =>
    if 0 < i ∧ headIsAsciiAlpha url ∧ (url.take i).all isSchemeChar then
      ((url.take i).map Char.toLower, url.drop (i + 1))
    else (dscheme, url)
  | none => (dscheme, url)

/-- `_splitnetloc(url, 2)` applied to `url` with the leading `'//'` removed:
the netloc extends to the first of `'/'`, `'?'`, `'#'`. -/
def splitNetlocL (url : List Char) : List Char × List Char :=
  let i := (List.findIdx? (fun c => c == '/' || c == '?' || c == '#') url).getD url.length
  (url.take i, url.drop i)

/-- `url.split(sep, 1)` when `sep` may be absent: split at the first occurrence,
or return `(url, "")`. -/
def splitFirstL (sep : Char) (l : List Char) : List Char × List Char :=
  match List.findIdx? (fun c => c == sep) l with
  | some i => (l.take i, l.drop (i + 1))
  | none => (l, [])

/-- Result of `urlsplit`. -/
structure SplitUrl where
  scheme : List Char
  netloc : List Char
  path : List Char
  query : List Char
  fragment : List Char

/-- `urllib.parse.urlsplit(url, dscheme)` (with `allow_fragments=True`). -/
def pyUrlsplitL (url0 dscheme0 : List Char) : SplitUrl :=
  let url1 := cleanUrl url0
  let dscheme := cleanScheme dscheme0
  let su := splitSchemeL url1 dscheme
  let scheme := su.1
  let url2 := su.2
  let nu : List Char × List Char :=
    if url2.take 2 = ['/', '/'] then splitNetlocL (url2.drop 2) else ([], url2)
  let fu := splitFirstL '#' nu.2
  let qu := splitFirstL '?' fu.1
  ⟨scheme, nu.1, qu.1, qu.2, fu.2⟩

/-- `urllib.parse.uses_relative`. -/
def usesRelativeL : List (List Char) :=
  ["", "ftp", "http", "gopher", "nntp", "imap", "wais", "file", "https", "shttp",
    "mms", "prospero", "rtsp", "rtsps", "rtspu", "sftp", "svn", "svn+ssh", "ws",
    "wss"].map String.toList

/-- `urllib.parse.uses_netloc`. -/
def usesNetlocL : List (List Char) :=
  ["", "ftp", "http", "gopher", "nntp", "telnet", "imap", "wais", "file", "mms",
    "https", "shttp", "snews", "prospero", "rtsp", "rtsps", "rtspu", "rsync",
    "svn", "svn+ssh", "sftp", "nfs", "git", "git+ssh", "ws", "wss"].map String.toList

/-- `urllib.parse.uses_params`. -/
def usesParamsL : List (List Char) :=
  ["", "ftp", "hdl", "prospero", "http", "imap", "https", "shttp", "rtsp",
    "rtsps", "rtspu", "sip", "sips", "mms", "sftp", "tel"].map String.toList

/-- `str.rfind(c)` as an optional index. -/
def lastIdxOf (c : Char) (l : List Char) : Option Nat :=
  (List.findIdx? (fun d => d == c) l.reverse).map (fun j => l.length - 1 - j)

/-- `str.find(c, start)` as an optional index. -/
def findFromIdx (c : Char) (start : Nat) (l : List Char) : Option Nat :=
  (List.findIdx? (fun d => d == c) (l.drop start)).map (fun j => j + start)

/-- `urllib.parse._splitparams`. -/
def splitParamsL (url : List Char) : List Char × List Char :=
  if url.contains '/' then
    match findFromIdx ';' ((lastIdxOf '/' url).getD 0) url with
    | none => (url, [])
    | some i => (url.take i, url.drop (i + 1))
  else
    match List.findIdx? (fun c => c == ';') url with
    | none => (url, [])
    | some i => (url.take i, url.drop (i + 1))

/-- Result of `urlparse` (a `SplitUrl` plus the `params` component). -/
structure UrlParts where
  scheme : List Char
  netloc : List Char
  path : List Char
  params : List Char
  query : List Char
  fragment : List Char

/-- `urllib.parse.urlparse(url, dscheme)`. -/
def pyUrlparseL (url dscheme : List Char) : UrlParts :=
  let s := pyUrlsplitL url dscheme
  if usesParamsL.contains s.scheme ∧ s.path.contains ';' then
    let pp := splitParamsL s.path
    ⟨s.scheme, s.netloc, pp.1, pp.2, s.query, s.fragment⟩
  else ⟨s.scheme, s.netloc, s.path, [], s.query, s.fragment⟩

/-- `urllib.parse.urlunsplit`. -/
def pyUrlunsplitL (scheme netloc url0 query fragment : List Char) : List Char :=
  let url :=
    if netloc ≠ [] ∨ (scheme ≠ [] ∧ usesNetlocL.contains scheme ∧ url0.take 2 ≠ ['/', '/']) then
      ['/', '/'] ++ netloc ++ (if url0 ≠ [] ∧ url0.take 1 ≠ ['/'] then '/' :: url0 else url0)
    else url0
  let url := if scheme ≠ [] then scheme ++ ':' :: url else url
  let url := if query ≠ [] then url ++ '?' :: query else url
  if fragment ≠ [] then url ++ '#' :: fragment else url

/-- `urllib.parse.urlunparse`. -/
def pyUrlunparseL (p : UrlParts) : List Char :=
  pyUrlunsplitL p.scheme p.netloc
    (if p.params ≠ [] then p.path ++ ';' :: p.params else p.path) p.query p.fragment

/-- The in-place update `segments[1:-1] = filter(None, segments[1:-1])`:
drop empty segments, keeping the last element unconditionally. -/
def dropEmptyKeepLast : List (List Char) → List (List Char)
  | [] => []
  | [s] => [s]
  | s :: t :: rest =>
    if s = [] then dropEmptyKeepLast (t :: rest) else s :: dropEmptyKeepLast (t :: rest)

/-- `segments[1:-1] = filter(None, segments[1:-1])`: the first element is also
kept unconditionally. -/
def filterInterior : List (List Char) → List (List Char)
  | [] => []
  | s :: rest => s :: dropEmptyKeepLast rest

/-- The `'..'` / `'.'` resolution loop of `urljoin` (popping on an empty stack
is ignored). -/
def resolveDotsL : List (List Char) → List (List Char) → List (List Char)
  | [], acc => acc
  | seg :: rest, acc =>
    if seg = ['.', '.'] then resolveDotsL rest acc.dropLast
    else if seg = ['.'] then resolveDotsL rest acc
    else resolveDotsL rest (acc ++ [seg])

/-- `urllib.parse.urljoin(base, url)` (CPython 3.11). -/
def pyUrljoinL (base url : List Char) : List Char :=
  if base = [] then url
  else if url = [] then base
  else
    let b := pyUrlparseL base []
    let u := pyUrlparseL url b.scheme
    if u.scheme ≠ b.scheme ∨ ¬ usesRelativeL.contains u.scheme then url
    else if usesNetlocL.contains u.scheme ∧ u.netloc ≠ [] then pyUrlunparseL u
    else
      let netloc := if usesNetlocL.contains u.scheme then b.netloc else u.netloc
      if u.path = [] ∧ u.params = [] then
        pyUrlunparseL ⟨u.scheme, netloc, b.path, b.params,
          (if u.query = [] then b.query else u.query), u.fragment⟩
      else
        let baseParts0 := b.path.splitOn '/'
        let baseParts := if baseParts0.getLastD [] ≠ [] then baseParts0.dropLast else baseParts0
        let segments :=
          if u.path.take 1 = ['/'] then u.path.splitOn '/'
          else filterInterior (baseParts ++ u.path.splitOn '/')
        let resolved0 := resolveDotsL segments []
        let resolved :=
          if segments.getLastD [] = ['.'] ∨ segments.getLastD [] = ['.', '.'] then
            resolved0 ++ [[]]
          else resolved0
        let path := List.intercalate ['/'] resolved
        pyUrlunparseL ⟨u.scheme, netloc, (if path = [] then ['/'] else path),
          u.params, u.query, u.fragment⟩

/-- `urllib.parse.urljoin` on `String`. -/
def pyUrljoin (base url : String) : String :=
  (pyUrljoinL base.toList url.toList).asString

/-!
## HTTP layer

Requests are descriptions of the single network round trip each operation makes;
the environment is an oracle `server : HttpRequest → HttpResponse`.
-/

/-- HTTP methods used by the client. -/
inductive Method where
  | get
  | post
  | delete

/-- One HTTP request as assembled by the `requests` calls in the source:
`jsonBody` models the `json=` argument, `formData` the `data=` argument
(field name, field value as sent on the wire), `fileData` the `files=` argument. -/
structure HttpRequest where
  method : Method
  url : String
  auth : String × String
  jsonBody : Option JsonValue
  formData : List (String × String)
  fileData : List (String × List Nat)

/-- One HTTP response: status code, raw body, and `jsonData` abstracting
`json.loads(body)` (`none` when the body is not valid JSON). -/
structure HttpResponse where
  status : Nat
  body : String
  jsonData : Option JsonValue

/-- The errors the library can raise: `requests.HTTPError` (which carries the
response, hence its status and body), the library's own `PersephoneException`,
and other Python exceptions (JSON decode errors, `KeyError`/`TypeError`). -/
inductive PyError where
  | httpError (status : Nat) (body : String)
  | persephoneError (msg : String)
  | valueError (msg : String)

/-- `requests.Response.raise_for_status`: raises `HTTPError` exactly for
status codes 400–599 (4xx client errors and 5xx server errors). -/
def raiseForStatus (r : HttpResponse) : Except PyError Unit :=
  if 400 ≤ r.status ∧ r.status < 600 then Except.error (PyError.httpError r.status r.body)
  else Except.ok ()

/-- `resp.json()`: the parsed body, or a decode error. -/
def respJson (r : HttpResponse) : Except PyError JsonValue :=
  match r.jsonData with
  | some v => Except.ok v
  | none => Except.error (PyError.valueError "JSONDecodeError")

/-- `resp.raise_for_status(); return resp.json()` — the tail of every
JSON-returning client operation. -/
def clientJsonResult (r : HttpResponse) : Except PyError JsonValue :=
  match raiseForStatus r with
  | Except.error e => Except.error e
  | Except.ok _ => respJson r

/-!
## `PersephoneClient`

`project_id` and `build_id` are arbitrary Python values in the source; they are
only ever consumed by brace-format into a path segment, i.e. `str()`.  `pyStr`/`pyRepr`
model `str()`/`repr()` on JSON-like values (Python's `repr` of a string picks
double quotes when the string contains `'` but no `"`, and escapes the quote,
backslashes and non-printable ASCII).
-/

/-- `'%02x' % n`. -/
def hex2 (n : Nat) : String :=
  String.mk [hexDigitChar (n / 16 % 16), hexDigitChar (n % 16)]

/-- One character of Python `repr` for a string quoted with `q`. -/
def pyReprChar (q : Char) (c : Char) : String :=
  if c = '\\' then "\\\\"
  else if c = q then "\\" ++ String.mk [q]
  else if c = '\n' then "\\n"
  else if c = '\r' then "\\r"
  else if c = '\t' then "\\t"
  else if c.toNat < 0x20 ∨ c.toNat = 0x7f then "\\x" ++ hex2 c.toNat
  else String.mk [c]

/-- Python `repr` of a string (modelled for strings without non-ASCII
non-printable characters, which `repr` would `\u`-escape). -/
def pyReprStr (s : String) : String :=
  let q : Char := if s.toList.contains '\'' ∧ ¬ s.toList.contains '"' then '"' else '\''
  String.mk [q] ++ String.join (s.toList.map (pyReprChar q)) ++ String.mk [q]

mutual

/-- Python `repr()` on JSON-like values. -/
def pyRepr : JsonValue → String
  | JsonValue.null => "None"
  | JsonValue.bool true => "True"
  | JsonValue.bool false => "False"
  | JsonValue.num n => toString n
  | JsonValue.str s => pyReprStr s
  | JsonValue.arr xs => "[" ++ pyReprElems xs ++ "]"
  | JsonValue.obj kvs => "\x7b" ++ pyReprMembers kvs ++ "\x7d"

/-- Container elements, `repr`'d and joined by `', '`. -/
def pyReprElems : List JsonValue → String
  | [] => ""
  | [x] => pyRepr x
  | x :: y :: xs => pyRepr x ++ ", " ++ pyReprElems (y :: xs)

/-- Dict members `repr(k): repr(v)` joined by `', '`. -/
def pyReprMembers : List (String × JsonValue) → String
  | [] => ""
  | [(k, v)] => pyReprStr k ++ ": " ++ pyRepr v
  | (k, v) :: m :: kvs => pyReprStr k ++ ": " ++ pyRepr v ++ ", " ++ pyReprMembers (m :: kvs)

end

/-- Python `str()` on JSON-like values: the identity on strings, `repr`
otherwise (on `None`, booleans, numbers and containers `str` and `repr`
coincide). -/
def pyStr (v : JsonValue) : String :=
  match v with
  | JsonValue.str s => s
  | _ => pyRepr v

/-- The `PersephoneClient` class: credentials plus the root endpoint.
`_auth` in the source is the tuple `(username, password)`. -/
structure PersephoneClient where
  root_endpoint : String
  username : String
  password : String

/-- `self._auth`. -/
def PersephoneClient._auth (c : PersephoneClient) : String × String :=
  (c.username, c.password)

/-- `_get_api_endpoint`. -/
def PersephoneClient._get_api_endpoint (c : PersephoneClient) : String :=
  pyUrljoin c.root_endpoint "api/v1/"

/-- `_get_projects_endpoint`. -/
def PersephoneClient._get_projects_endpoint (c : PersephoneClient) : String :=
  pyUrljoin c._get_api_endpoint "projects/"

/-- `_get_project_endpoint` (the format call renders `str(project_id) + "/"`). -/
def PersephoneClient._get_project_endpoint (c : PersephoneClient) (project_id : JsonValue) : String :=
  pyUrljoin c._get_projects_endpoint (pyStr project_id ++ "/")

/-- `_get_builds_endpoint`. -/
def PersephoneClient._get_builds_endpoint (c : PersephoneClient) (project_id : JsonValue) : String :=
  pyUrljoin (c._get_project_endpoint project_id) "builds/"

/-- `_get_build_endpoint`. -/
def PersephoneClient._get_build_endpoint (c : PersephoneClient) (project_id build_id : JsonValue) : String :=
  pyUrljoin (c._get_builds_endpoint project_id) (pyStr build_id ++ "/")

/-- `_get_screenshots_endpoint`. -/
def PersephoneClient._get_screenshots_endpoint (c : PersephoneClient) (project_id build_id : JsonValue) : String :=
  pyUrljoin (c._get_build_endpoint project_id build_id) "screenshots/"

/-- The request issued by `PersephoneClient.get_projects`. -/
def PersephoneClient.get_projects_req (c : PersephoneClient) : HttpRequest :=
  ⟨Method.get, c._get_projects_endpoint, c._auth, none, [], []⟩

/-- `PersephoneClient.get_projects`. -/
def PersephoneClient.get_projects (c : PersephoneClient) (server : HttpRequest → HttpResponse) :
    Except PyError JsonValue × List HttpRequest :=
  (clientJsonResult (server c.get_projects_req), [c.get_projects_req])

/-- The request issued by `PersephoneClient.get_project`. -/
def PersephoneClient.get_project_req (c : PersephoneClient) (project_id : JsonValue) : HttpRequest :=
  ⟨Method.get, c._get_project_endpoint project_id, c._auth, none, [], []⟩

/-- `PersephoneClient.get_project`. -/
def PersephoneClient.get_project (c : PersephoneClient) (project_id : JsonValue)
    (server : HttpRequest → HttpResponse) : Except PyError JsonValue × List HttpRequest :=
  (clientJsonResult (server (c.get_project_req project_id)), [c.get_project_req project_id])

/-- The request issued by `PersephoneClient.get_builds`. -/
def PersephoneClient.get_builds_req (c : PersephoneClient) (project_id : JsonValue) : HttpRequest :=
  ⟨Method.get, c._get_builds_endpoint project_id, c._auth, none, [], []⟩

/-- `PersephoneClient.get_builds`. -/
def PersephoneClient.get_builds (c : PersephoneClient) (project_id : JsonValue)
    (server : HttpRequest → HttpResponse) : Except PyError JsonValue × List HttpRequest :=
  (clientJsonResult (server (c.get_builds_req project_id)), [c.get_builds_req project_id])

/-- The request issued by `PersephoneClient.get_build`. -/
def PersephoneClient.get_build_req (c : PersephoneClient) (project_id build_id : JsonValue) : HttpRequest :=
  ⟨Method.get, c._get_build_endpoint project_id build_id, c._auth, none, [], []⟩

/-- `PersephoneClient.get_build`. -/
def PersephoneClient.get_build (c : PersephoneClient) (project_id build_id : JsonValue)
    (server : HttpRequest → HttpResponse) : Except PyError JsonValue × List HttpRequest :=
  (clientJsonResult (server (c.get_build_req project_id build_id)),
    [c.get_build_req project_id build_id])

/-- The JSON body sent by `PersephoneClient.create_build`. -/
def createBuildBody (commit_hash branch_name original_build_number original_build_url
    pull_request_id : JsonValue) : JsonValue :=
  JsonValue.obj [("commit_hash", commit_hash), ("branch_name", branch_name),
    ("original_build_number", original_build_number),
    ("original_build_url", original_build_url), ("pull_request_id", pull_request_id)]

/-- The request issued by `PersephoneClient.create_build`. -/
def PersephoneClient.create_build_req (c : PersephoneClient) (project_id : JsonValue)
    (commit_hash branch_name original_build_number original_build_url pull_request_id : JsonValue) :
    HttpRequest :=
  ⟨Method.post, c._get_builds_endpoint project_id, c._auth,
    some (createBuildBody commit_hash branch_name original_build_number original_build_url
      pull_request_id), [], []⟩

/-- `PersephoneClient.create_build` (each keyword argument defaults to `None`,
i.e. `JsonValue.null`, at call sites that omit it). -/
def PersephoneClient.create_build (c : PersephoneClient) (project_id : JsonValue)
    (commit_hash branch_name original_build_number original_build_url pull_request_id : JsonValue)
    (server : HttpRequest → HttpResponse) : Except PyError JsonValue × List HttpRequest :=
  let req := c.create_build_req project_id commit_hash branch_name original_build_number
    original_build_url pull_request_id
  (clientJsonResult (server req), [req])

/-- The request issued by `PersephoneClient.delete_build`. -/
def PersephoneClient.delete_build_req (c : PersephoneClient) (project_id build_id : JsonValue) :
    HttpRequest :=
  ⟨Method.delete, c._get_build_endpoint project_id build_id, c._auth, none, [], []⟩

/-- `PersephoneClient.delete_build` (returns no value: only `raise_for_status`). -/
def PersephoneClient.delete_build (c : PersephoneClient) (project_id build_id : JsonValue)
    (server : HttpRequest → HttpResponse) : Except PyError Unit × List HttpRequest :=
  (raiseForStatus (server (c.delete_build_req project_id build_id)),
    [c.delete_build_req project_id build_id])

/-- The request issued by `PersephoneClient.finish_build`. -/
def PersephoneClient.finish_build_req (c : PersephoneClient) (project_id build_id : JsonValue) :
    HttpRequest :=
  ⟨Method.post, pyUrljoin (c._get_build_endpoint project_id build_id) "finish", c._auth,
    none, [], []⟩

/-- `PersephoneClient.finish_build`. -/
def PersephoneClient.finish_build (c : PersephoneClient) (project_id build_id : JsonValue)
    (server : HttpRequest → HttpResponse) : Except PyError JsonValue × List HttpRequest :=
  (clientJsonResult (server (c.finish_build_req project_id build_id)),
    [c.finish_build_req project_id build_id])

/-- The request issued by `PersephoneClient.fail_build`. -/
def PersephoneClient.fail_build_req (c : PersephoneClient) (project_id build_id : JsonValue) :
    HttpRequest :=
  ⟨Method.post, pyUrljoin (c._get_build_endpoint project_id build_id) "fail", c._auth,
    none, [], []⟩

/-- `PersephoneClient.fail_build`. -/
def PersephoneClient.fail_build (c : PersephoneClient) (project_id build_id : JsonValue)
    (server : HttpRequest → HttpResponse) : Except PyError JsonValue × List HttpRequest :=
  (clientJsonResult (server (c.fail_build_req project_id build_id)),
    [c.fail_build_req project_id build_id])

/-- The request issued by `PersephoneClient.post_screenshot`: multipart request
with form fields `name` and `metadata` (the latter `json.dumps`-serialised) and
file field `image`. -/
def PersephoneClient.post_screenshot_req (c : PersephoneClient) (project_id build_id : JsonValue)
    (name : String) (image_data : List Nat) (metadata : JsonValue) : HttpRequest :=
  ⟨Method.post, c._get_screenshots_endpoint project_id build_id, c._auth,
    none, [("name", name), ("metadata", jsonDumps metadata)], [("image", image_data)]⟩

/-- `PersephoneClient.post_screenshot`. -/
def PersephoneClient.post_screenshot (c : PersephoneClient) (project_id build_id : JsonValue)
    (name : String) (image_data : List Nat) (metadata : JsonValue)
    (server : HttpRequest → HttpResponse) : Except PyError JsonValue × List HttpRequest :=
  let req := c.post_screenshot_req project_id build_id name image_data metadata
  (clientJsonResult (server req), [req])

/-!
## `PersephoneBuildHelper`

The helper holds one client plus the build metadata and the nullable
`build_id`.  The source guards with `if self.build_id:` / `if not self.build_id:`,
i.e. Python *truthiness*, not an `is None` test.
-/

/-- Python truthiness of a JSON-like value (`None`, `False`, `0`, `''`, `[]`
and the empty dict are falsy). -/
def JsonValue.truthy : JsonValue → Bool
  | JsonValue.null => false
  | JsonValue.bool b => b
  | JsonValue.num n => n != 0
  | JsonValue.str s => !s.isEmpty
  | JsonValue.arr xs => !xs.isEmpty
  | JsonValue.obj kvs => !kvs.isEmpty

/-- `d[key]` on a parsed JSON value: `KeyError` when the key is missing,
`TypeError` when the value is not a dict. -/
def jsonGet (v : JsonValue) (key : String) : Except PyError JsonValue :=
  match v with
  | JsonValue.obj kvs =>
    match kvs.lookup key with
    | some x => Except.ok x
    | none => Except.error (PyError.valueError "KeyError")
  | _ => Except.error (PyError.valueError "TypeError")

/-- The message of the `PersephoneException` raised by
`PersephoneBuildHelper.create_build` when a build is already running. -/
def buildRunningMsg : String :=
  "There is already a build running. Please finish or fail the previous one before creating a new one."

/-- The message of the `PersephoneException` raised by the build-scoped helper
operations when no build is running. -/
def noBuildMsg : String := "No build is running. Please create a build first."

/-- The `PersephoneBuildHelper` instance state. -/
structure PersephoneBuildHelper where
  client : PersephoneClient
  project_id : JsonValue
  commit_hash : JsonValue
  branch_name : JsonValue
  original_build_number : JsonValue
  original_build_url : JsonValue
  pull_request_id : JsonValue
  build_id : JsonValue

/-- `PersephoneBuildHelper.__init__` (every metadata argument and `build_id`
defaults to `None`, i.e. `JsonValue.null`, at call sites that omit it). -/
def PersephoneBuildHelper.make (root_endpoint username password : String)
    (project_id commit_hash branch_name original_build_number original_build_url
      pull_request_id build_id : JsonValue) : PersephoneBuildHelper :=
  ⟨⟨root_endpoint, username, password⟩, project_id, commit_hash, branch_name,
    original_build_number, original_build_url, pull_request_id, build_id⟩

/-- `PersephoneBuildHelper.create_build`: result, updated helper state, and the
requests issued. -/
def PersephoneBuildHelper.create_build (h : PersephoneBuildHelper)
    (server : HttpRequest → HttpResponse) :
    Except PyError Unit × PersephoneBuildHelper × List HttpRequest :=
  if h.build_id.truthy then
    (Except.error (PyError.persephoneError buildRunningMsg), h, [])
  else
    let cr := h.client.create_build h.project_id h.commit_hash h.branch_name
      h.original_build_number h.original_build_url h.pull_request_id server
    match cr.1 with
    | Except.error e => (Except.error e, h, cr.2)
    | Except.ok build =>
      match jsonGet build "id" with
      | Except.error e => (Except.error e, h, cr.2)
      | Except.ok v => (Except.ok (), { h with build_id := v }, cr.2)

/-- `PersephoneBuildHelper.delete_build`. -/
def PersephoneBuildHelper.delete_build (h : PersephoneBuildHelper)
    (server : HttpRequest → HttpResponse) :
    Except PyError Unit × PersephoneBuildHelper × List HttpRequest :=
  if !h.build_id.truthy then
    (Except.error (PyError.persephoneError noBuildMsg), h, [])
  else
    let cr := h.client.delete_build h.project_id h.build_id server
    match cr.1 with
    | Except.error e => (Except.error e, h, cr.2)
    | Except.ok _ => (Except.ok (), { h with build_id := JsonValue.null }, cr.2)

/-- `PersephoneBuildHelper.finish_build`. -/
def PersephoneBuildHelper.finish_build (h : PersephoneBuildHelper)
    (server : HttpRequest → HttpResponse) :
    Except PyError Unit × PersephoneBuildHelper × List HttpRequest :=
  if !h.build_id.truthy then
    (Except.error (PyError.persephoneError noBuildMsg), h, [])
  else
    let cr := h.client.finish_build h.project_id h.build_id server
    match cr.1 with
    | Except.error e => (Except.error e, h, cr.2)
    | Except.ok _ => (Except.ok (), { h with build_id := JsonValue.null }, cr.2)

/-- `PersephoneBuildHelper.fail_build`. -/
def PersephoneBuildHelper.fail_build (h : PersephoneBuildHelper)
    (server : HttpRequest → HttpResponse) :
    Except PyError Unit × PersephoneBuildHelper × List HttpRequest :=
  if !h.build_id.truthy then
    (Except.error (PyError.persephoneError noBuildMsg), h, [])
  else
    let cr := h.client.fail_build h.project_id h.build_id server
    match cr.1 with
    | Except.error e => (Except.error e, h, cr.2)
    | Except.ok _ => (Except.ok (), { h with build_id := JsonValue.null }, cr.2)

/-- `PersephoneBuildHelper.upload_screenshot` (`metadata` defaults to `None`,
i.e. `JsonValue.null`, at call sites that omit it); returns `screenshot['id']`. -/
def PersephoneBuildHelper.upload_screenshot (h : PersephoneBuildHelper) (name : String)
    (image_data : List Nat) (metadata : JsonValue) (server : HttpRequest → HttpResponse) :
    Except PyError JsonValue × PersephoneBuildHelper × List HttpRequest :=
  if !h.build_id.truthy then
    (Except.error (PyError.persephoneError noBuildMsg), h, [])
  else
    let cr := h.client.post_screenshot h.project_id h.build_id name image_data metadata server
    match cr.1 with
    | Except.error e => (Except.error e, h, cr.2)
    | Except.ok screenshot =>
      match jsonGet screenshot "id" with
      | Except.error e => (Except.error e, h, cr.2)
      | Except.ok v => (Except.ok v, h, cr.2)

/-! URL-safe characters and segment representations -/

def plainChar (c : Char) : Bool :=
  decide ((65 ≤ c.toNat ∧ c.toNat ≤ 90) ∨ (97 ≤ c.toNat ∧ c.toNat ≤ 122) ∨
    (48 ≤ c.toNat ∧ c.toNat ≤ 57) ∨ c = '-' ∨ c = '_')

def plainNetChar (c : Char) : Bool := plainChar c || c == '.' || c == ':'

def plainId (s : String) : Bool := !s.toList.isEmpty && s.toList.all plainChar

def PlainSeg (s : List Char) : Prop := s ≠ [] ∧ ∀ c ∈ s, plainChar c = true

def pathOfSegs (segs : List (List Char)) : List Char :=
  List.intercalate ['/'] ([] :: segs ++ [[]])

/-- The root endpoint `scheme://netloc/seg1/.../segn/` as a string. -/
def rootOf (scheme netloc : List Char) (bsegs : List (List Char)) : String :=
  (scheme ++ (':' :: '/' :: '/' :: (netloc ++ pathOfSegs bsegs))).asString

def exClient : PersephoneClient := ⟨"http://example.com/", "user", "pass"⟩

-- C4 counterexample: a 304 response is not 2xx, yet get_projects raises nothing.
def demoClient : PersephoneClient := ⟨"http://example.com/", "user", "pass"⟩

/-! Concrete helpers and servers used in witnesses and counterexamples. -/

def emptyIdHelper : PersephoneBuildHelper :=
  PersephoneBuildHelper.make "http://example.com/" "user" "pass" (JsonValue.str "proj")
    JsonValue.null JsonValue.null JsonValue.null JsonValue.null JsonValue.null (JsonValue.str "")

def runningHelper : PersephoneBuildHelper :=
  PersephoneBuildHelper.make "http://example.com/" "user" "pass" (JsonValue.str "proj")
    JsonValue.null JsonValue.null JsonValue.null JsonValue.null JsonValue.null (JsonValue.num 5)

def idleHelper : PersephoneBuildHelper :=
  PersephoneBuildHelper.make "http://example.com/" "user" "pass" (JsonValue.str "proj")
    JsonValue.null JsonValue.null JsonValue.null JsonValue.null JsonValue.null JsonValue.null

def okIdServer : HttpRequest → HttpResponse :=
  fun _ => ⟨200, "\x7b\"id\": 7\x7d", some (JsonValue.obj [("id", JsonValue.num 7)])⟩

def okEmptyObjServer : HttpRequest → HttpResponse :=
  fun _ => ⟨200, "\x7b\x7d", some (JsonValue.obj [])⟩

def notFoundServer : HttpRequest → HttpResponse :=
  fun _ => ⟨404, "not found", none⟩

def notModifiedServer : HttpRequest → HttpResponse :=
  fun _ => ⟨304, "", some (JsonValue.arr [])⟩

/-!
## Unfolded descriptions of the helper operations

Each `*_spec` lemma restates a helper method as a single equation (provable by
`rfl`); the claim proofs below work from these.
-/

/-- The request `create_build` forwards to the client. -/
def PersephoneBuildHelper.createReq (h : PersephoneBuildHelper) : HttpRequest :=
  h.client.create_build_req h.project_id h.commit_hash h.branch_name
    h.original_build_number h.original_build_url h.pull_request_id

/-- The request `delete_build` forwards to the client. -/
def PersephoneBuildHelper.deleteReq (h : PersephoneBuildHelper) : HttpRequest :=
  h.client.delete_build_req h.project_id h.build_id

/-- The request `finish_build` forwards to the client. -/
def PersephoneBuildHelper.finishReq (h : PersephoneBuildHelper) : HttpRequest :=
  h.client.finish_build_req h.project_id h.build_id

/-- The request `fail_build` forwards to the client. -/
def PersephoneBuildHelper.failReq (h : PersephoneBuildHelper) : HttpRequest :=
  h.client.fail_build_req h.project_id h.build_id

/-- The request `upload_screenshot` forwards to the client. -/
def PersephoneBuildHelper.uploadReq (h : PersephoneBuildHelper) (name : String)
    (image_data : List Nat) (metadata : JsonValue) : HttpRequest :=
  h.client.post_screenshot_req h.project_id h.build_id name image_data metadata

theorem create_build_spec (h : PersephoneBuildHelper) (server : HttpRequest → HttpResponse) :
    h.create_build server =
      if h.build_id.truthy then
        (Except.error (PyError.persephoneError buildRunningMsg), h, [])
      else
        match clientJsonResult (server h.createReq) with
        | Except.error e => (Except.error e, h, [h.createReq])
        | Except.ok build =>
          match jsonGet build "id" with
          | Except.error e => (Except.error e, h, [h.createReq])
          | Except.ok v => (Except.ok (), { h with build_id := v }, [h.createReq]) := rfl

theorem delete_build_spec (h : PersephoneBuildHelper) (server : HttpRequest → HttpResponse) :
    h.delete_build server =
      if h.build_id.truthy then
        match raiseForStatus (server h.deleteReq) with
        | Except.error e => (Except.error e, h, [h.deleteReq])
        | Except.ok _ => (Except.ok (), { h with build_id := JsonValue.null }, [h.deleteReq])
      else (Except.error (PyError.persephoneError noBuildMsg), h, []) := by
  unfold PersephoneBuildHelper.delete_build PersephoneClient.delete_build
  cases hb : h.build_id.truthy <;> rfl

theorem finish_build_spec (h : PersephoneBuildHelper) (server : HttpRequest → HttpResponse) :
    h.finish_build server =
      if h.build_id.truthy then
        match clientJsonResult (server h.finishReq) with
        | Except.error e => (Except.error e, h, [h.finishReq])
        | Except.ok _ => (Except.ok (), { h with build_id := JsonValue.null }, [h.finishReq])
      else (Except.error (PyError.persephoneError noBuildMsg), h, []) := by
  unfold PersephoneBuildHelper.finish_build PersephoneClient.finish_build
  cases hb : h.build_id.truthy <;> rfl

theorem fail_build_spec (h : PersephoneBuildHelper) (server : HttpRequest → HttpResponse) :
    h.fail_build server =
      if h.build_id.truthy then
        match clientJsonResult (server h.failReq) with
        | Except.error e => (Except.error e, h, [h.failReq])
        | Except.ok _ => (Except.ok (), { h with build_id := JsonValue.null }, [h.failReq])
      else (Except.error (PyError.persephoneError noBuildMsg), h, []) := by
  unfold PersephoneBuildHelper.fail_build PersephoneClient.fail_build
  cases hb : h.build_id.truthy <;> rfl

theorem upload_screenshot_spec (h : PersephoneBuildHelper) (name : String)
    (image_data : List Nat) (metadata : JsonValue) (server : HttpRequest → HttpResponse) :
    h.upload_screenshot name image_data metadata server =
      if h.build_id.truthy then
        match clientJsonResult (server (h.uploadReq name image_data metadata)) with
        | Except.error e => (Except.error e, h, [h.uploadReq name image_data metadata])
        | Except.ok screenshot =>
          match jsonGet screenshot "id" with
          | Except.error e => (Except.error e, h, [h.uploadReq name image_data metadata])
          | Except.ok v => (Except.ok v, h, [h.uploadReq name image_data metadata])
      else (Except.error (PyError.persephoneError noBuildMsg), h, []) := by
  unfold PersephoneBuildHelper.upload_screenshot PersephoneClient.post_screenshot
  cases hb : h.build_id.truthy <;> rfl

/-!
## Library facts about the `urllib.parse` embedding
-/

theorem plainChar_toNat (c : Char) (hc : plainChar c = true) : 0x20 < c.toNat := by
  unfold plainChar at hc
  rw [decide_eq_true_iff] at hc
  rcases hc with ⟨h1, _⟩ | ⟨h1, _⟩ | ⟨h1, _⟩ | rfl | rfl <;> first | omega | decide

theorem plainChar_ne (c : Char) (hc : plainChar c = true) (d : Char)
    (hd : plainChar d = false) : c ≠ d := by
  intro h
  subst h
  rw [hc] at hd
  exact Bool.noConfusion hd

theorem plainNetChar_toNat (c : Char) (hc : plainNetChar c = true) : 0x20 < c.toNat := by
  unfold plainNetChar at hc
  simp only [Bool.or_eq_true, beq_iff_eq] at hc
  rcases hc with (hc | rfl) | rfl
  · exact plainChar_toNat c hc
  · decide
  · decide

theorem plainNetChar_ne (c : Char) (hc : plainNetChar c = true) (d : Char)
    (hd : plainNetChar d = false) : c ≠ d := by
  intro h
  subst h
  rw [hc] at hd
  exact Bool.noConfusion hd

theorem cleanUrl_eq_self (l : List Char) (h : ∀ c ∈ l, 0x20 < c.toNat) : cleanUrl l = l := by
  unfold cleanUrl
  have hdw : l.dropWhile isC0OrSpace = l := by
    cases l with
    | nil => rfl
    | cons a t =>
      rw [List.dropWhile_cons_of_neg]
      have := h a (List.mem_cons_self a t)
      simp only [isC0OrSpace, decide_eq_true_iff]
      omega
  rw [hdw, List.filter_eq_self.mpr]
  intro c hc
  have hgt := h c hc
  simp only [isUnsafeUrlByte, Bool.not_eq_eq_eq_not, Bool.not_true, Bool.or_eq_false_iff,
    beq_eq_false_iff_ne, ne_eq]
  refine ⟨⟨?_, ?_⟩, ?_⟩ <;> rintro rfl <;> revert hgt <;> decide

theorem findIdx?_eq_none_of_all (p : Char → Bool) (l : List Char)
    (h : ∀ c ∈ l, p c = false) : List.findIdx? p l = none :=
  List.findIdx?_eq_none_iff.mpr h

theorem splitFirstL_of_absent (sep : Char) (l : List Char) (h : ∀ c ∈ l, (c == sep) = false) :
    splitFirstL sep l = (l, []) := by
  unfold splitFirstL
  rw [findIdx?_eq_none_of_all _ _ h]

theorem contains_eq_false_of_all (l : List Char) (x : Char) (h : ∀ c ∈ l, ¬ c = x) :
    l.contains x = false := by
  rw [Bool.eq_false_iff]
  intro hc
  rw [List.contains_iff_exists_mem_beq] at hc
  rcases hc with ⟨a, ha, hbeq⟩
  exact h a ha (eq_of_beq hbeq).symm

theorem splitScheme_http (rest : List Char) :
    splitSchemeL ("http".toList ++ ':' :: rest) [] = ("http".toList, rest) := rfl

theorem splitScheme_https (rest : List Char) :
    splitSchemeL ("https".toList ++ ':' :: rest) [] = ("https".toList, rest) := rfl

theorem intercalate_cons_cons (s a b : List Char) (t : List (List Char)) :
    List.intercalate s (a :: b :: t) = a ++ s ++ List.intercalate s (b :: t) := by
  simp only [List.intercalate, List.intersperse_cons_cons, List.flatten_cons, List.append_assoc]

theorem intercalate_single (s a : List Char) : List.intercalate s [a] = a := by
  simp [List.intercalate]

theorem intercalate_append_ne_nil (s : List Char) (ys zs : List (List Char))
    (hys : ys ≠ []) (hzs : zs ≠ []) :
    List.intercalate s (ys ++ zs) = List.intercalate s ys ++ s ++ List.intercalate s zs := by
  induction ys with
  | nil => exact absurd rfl hys
  | cons a t ih =>
    cases t with
    | nil =>
      cases zs with
      | nil => exact absurd rfl hzs
      | cons b u =>
        rw [List.singleton_append, intercalate_cons_cons, intercalate_single]
    | cons a' t' =>
      show List.intercalate s (a :: ((a' :: t') ++ zs)) = _
      rw [show a :: ((a' :: t') ++ zs) = a :: a' :: (t' ++ zs) from rfl, intercalate_cons_cons,
        show (a' :: (t' ++ zs)) = (a' :: t') ++ zs from rfl, ih (by simp), intercalate_cons_cons]
      simp [List.append_assoc]

theorem PlainSeg.not_mem {s : List Char} (hs : PlainSeg s) (d : Char)
    (hd : plainChar d = false) : d ∉ s :=
  fun hm => by rw [hs.2 d hm] at hd; exact Bool.noConfusion hd

theorem pathOfSegs_append_intercalate (bsegs rsegs : List (List Char)) (h : rsegs ≠ []) :
    pathOfSegs bsegs ++ List.intercalate ['/'] rsegs =
      List.intercalate ['/'] ([] :: bsegs ++ rsegs) := by
  unfold pathOfSegs
  rw [show ([] :: bsegs ++ [[]] : List (List Char)) = ([] :: bsegs) ++ [[]] from rfl,
    intercalate_append_ne_nil _ _ _ (by simp) (by simp),
    show ([] :: bsegs ++ rsegs : List (List Char)) = ([] :: bsegs) ++ rsegs from rfl,
    intercalate_append_ne_nil _ _ _ (by simp) h, intercalate_single]
  simp

theorem pathOfSegs_extend (bsegs qsegs : List (List Char)) :
    pathOfSegs bsegs ++ List.intercalate ['/'] (qsegs ++ [[]]) =
      pathOfSegs (bsegs ++ qsegs) := by
  rw [pathOfSegs_append_intercalate _ _ (by simp)]
  unfold pathOfSegs
  simp [List.append_assoc]

theorem splitOn_pathOfSegs (segs : List (List Char)) (h : ∀ s ∈ segs, '/' ∉ s) :
    (pathOfSegs segs).splitOn '/' = [] :: segs ++ [[]] := by
  unfold pathOfSegs
  refine List.splitOn_intercalate _ '/' ?_ (by simp)
  intro l hl
  rcases List.mem_cons.mp hl with rfl | hl
  · simp
  · rcases List.mem_append.mp hl with hl | hl
    · exact h l hl
    · rcases List.mem_singleton.mp hl with rfl
      simp

theorem dropEmptyKeepLast_cons (a : List Char) (t : List (List Char)) (ht : t ≠ []) :
    dropEmptyKeepLast (a :: t) =
      if a = [] then dropEmptyKeepLast t else a :: dropEmptyKeepLast t := by
  cases t with
  | nil => exact absurd rfl ht
  | cons b u => rfl

theorem dropEmptyKeepLast_append (xs : List (List Char)) (z : List Char) :
    dropEmptyKeepLast (xs ++ [z]) = xs.filter (fun s => !s.isEmpty) ++ [z] := by
  induction xs with
  | nil => rfl
  | cons a t ih =>
    rw [List.cons_append, dropEmptyKeepLast_cons a (t ++ [z]) (by simp), ih, List.filter_cons]
    by_cases ha : a = []
    · subst ha
      simp
    · rw [if_neg ha]
      have hne : (!a.isEmpty) = true := by
        cases a
        · exact absurd rfl ha
        · rfl
      rw [hne]
      simp

theorem filter_nonempty_eq_self (xs : List (List Char)) (h : ∀ s ∈ xs, s ≠ []) :
    xs.filter (fun s => !s.isEmpty) = xs := by
  rw [List.filter_eq_self]
  intro a ha
  cases hA : a with
  | nil => exact absurd hA (h a ha)
  | cons b u => rfl

theorem resolveDots_no_dots (l acc : List (List Char))
    (h : ∀ s ∈ l, s ≠ ['.'] ∧ s ≠ ['.', '.']) : resolveDotsL l acc = acc ++ l := by
  induction l generalizing acc with
  | nil => simp [resolveDotsL]
  | cons a t ih =>
    have ha := h a (List.mem_cons_self a t)
    rw [resolveDotsL, if_neg ha.2, if_neg ha.1,
      ih _ (fun s hs => h s (List.mem_cons_of_mem a hs))]
    simp

theorem pathOfSegs_nil : pathOfSegs [] = ['/'] := rfl

theorem pathOfSegs_cons (s : List Char) (t : List (List Char)) :
    pathOfSegs (s :: t) = '/' :: (s ++ pathOfSegs t) := by
  unfold pathOfSegs
  rw [show ([] :: (s :: t) ++ [[]] : List (List Char)) = [] :: s :: (t ++ [[]]) from rfl,
    intercalate_cons_cons]
  cases t with
  | nil => rfl
  | cons b u =>
    rw [show (s :: (b :: u ++ [[]]) : List (List Char)) = s :: b :: (u ++ [[]]) from rfl,
      intercalate_cons_cons,
      show ([] :: b :: u ++ [[]] : List (List Char)) = [] :: b :: (u ++ [[]]) from rfl,
      intercalate_cons_cons]
    simp

theorem mem_pathOfSegs (segs : List (List Char)) (c : Char) (hc : c ∈ pathOfSegs segs) :
    c = '/' ∨ ∃ s ∈ segs, c ∈ s := by
  induction segs with
  | nil => rw [pathOfSegs_nil] at hc; exact Or.inl (List.mem_singleton.mp hc)
  | cons a t ih =>
    rw [pathOfSegs_cons] at hc
    rcases List.mem_cons.mp hc with rfl | hc
    · exact Or.inl rfl
    · rcases List.mem_append.mp hc with ha | hp
      · exact Or.inr ⟨a, List.mem_cons_self a t, ha⟩
      · rcases ih hp with h | ⟨s, hs, hcs⟩
        · exact Or.inl h
        · exact Or.inr ⟨s, List.mem_cons_of_mem a hs, hcs⟩

theorem mem_intercalate_slash (rsegs : List (List Char)) (c : Char)
    (hc : c ∈ List.intercalate ['/'] rsegs) : c = '/' ∨ ∃ s ∈ rsegs, c ∈ s := by
  induction rsegs with
  | nil => simp [List.intercalate] at hc
  | cons a t ih =>
    cases t with
    | nil =>
      rw [intercalate_single] at hc
      exact Or.inr ⟨a, List.mem_singleton_self a, hc⟩
    | cons b u =>
      rw [intercalate_cons_cons] at hc
      rcases List.mem_append.mp hc with h1 | h2
      · rcases List.mem_append.mp h1 with ha | hs
        · exact Or.inr ⟨a, List.mem_cons_self _ _, ha⟩
        · exact Or.inl (List.mem_singleton.mp hs)
      · rcases ih h2 with h | ⟨s, hs, hcs⟩
        · exact Or.inl h
        · exact Or.inr ⟨s, List.mem_cons_of_mem a hs, hcs⟩

/-- Decompose membership in `rsegs` into the `dropLast` part and the last element. -/
theorem mem_of_dropLast_last (rsegs : List (List Char)) (hr0 : rsegs ≠ [])
    (s : List Char) (hs : s ∈ rsegs) :
    s ∈ rsegs.dropLast ∨ s = rsegs.getLastD [] := by
  rcases List.mem_append.mp
    (by rw [List.dropLast_append_getLast hr0] at *; exact hs :
      s ∈ rsegs.dropLast ++ [rsegs.getLast hr0]) with h | h
  · exact Or.inl h
  · refine Or.inr ?_
    rw [List.mem_singleton.mp h]
    rw [List.getLastD_eq_getLast?, List.getLast?_eq_getLast _ hr0]
    rfl

theorem pathOfSegs_head (bsegs : List (List Char)) : ∃ r, pathOfSegs bsegs = '/' :: r := by
  cases bsegs with
  | nil => exact ⟨[], rfl⟩
  | cons a t => exact ⟨a ++ pathOfSegs t, pathOfSegs_cons a t⟩

theorem urlsplit_good_base (scheme netloc : List Char) (bsegs : List (List Char))
    (hsch : scheme = "http".toList ∨ scheme = "https".toList)
    (hnlc : ∀ c ∈ netloc, plainNetChar c = true)
    (hbsegs : ∀ s ∈ bsegs, PlainSeg s) :
    pyUrlsplitL (scheme ++ (':' :: '/' :: '/' :: (netloc ++ pathOfSegs bsegs))) [] =
      ⟨scheme, netloc, pathOfSegs bsegs, [], []⟩ := by
  have hpathmem : ∀ c ∈ pathOfSegs bsegs, plainChar c = true ∨ c = '/' := by
    intro c hc
    rcases mem_pathOfSegs _ c hc with h | ⟨s, hs, hcs⟩
    · exact Or.inr h
    · exact Or.inl ((hbsegs s hs).2 c hcs)
  have hclean : cleanUrl (scheme ++ (':' :: '/' :: '/' :: (netloc ++ pathOfSegs bsegs))) =
      scheme ++ (':' :: '/' :: '/' :: (netloc ++ pathOfSegs bsegs)) := by
    apply cleanUrl_eq_self
    intro c hc
    rcases List.mem_append.mp hc with h | h
    · rcases hsch with rfl | rfl
      · exact (show ∀ c ∈ ("http".toList : List Char), 0x20 < c.toNat by decide) c h
      · exact (show ∀ c ∈ ("https".toList : List Char), 0x20 < c.toNat by decide) c h
    · rcases List.mem_cons.mp h with rfl | h
      · decide
      rcases List.mem_cons.mp h with rfl | h
      · decide
      rcases List.mem_cons.mp h with rfl | h
      · decide
      rcases List.mem_append.mp h with h | h
      · exact plainNetChar_toNat c (hnlc c h)
      · rcases hpathmem c h with hp | rfl
        · exact plainChar_toNat c hp
        · decide
  have hfd : List.findIdx? (fun c => c == '/' || c == '?' || c == '#')
      (netloc ++ pathOfSegs bsegs) = some netloc.length := by
    rw [List.findIdx?_append]
    have h1 : List.findIdx? (fun c => c == '/' || c == '?' || c == '#') netloc = none := by
      apply findIdx?_eq_none_of_all
      intro c hc
      have hpc := hnlc c hc
      have h2 := plainNetChar_ne c hpc '/' (by decide)
      have h3 := plainNetChar_ne c hpc '?' (by decide)
      have h4 := plainNetChar_ne c hpc '#' (by decide)
      simp only [Bool.or_eq_false_iff, beq_eq_false_iff_ne, ne_eq]
      exact ⟨⟨h2, h3⟩, h4⟩
    rw [h1]
    rcases pathOfSegs_head bsegs with ⟨r, hr⟩
    rw [hr]
    simp [List.findIdx?_cons]
  have hnohash : ∀ c ∈ pathOfSegs bsegs, (c == '#') = false := by
    intro c hc
    rcases hpathmem c hc with hp | rfl
    · simp only [beq_eq_false_iff_ne, ne_eq]
      exact plainChar_ne c hp '#' (by decide)
    · decide
  have hnoq : ∀ c ∈ pathOfSegs bsegs, (c == '?') = false := by
    intro c hc
    rcases hpathmem c hc with hp | rfl
    · simp only [beq_eq_false_iff_ne, ne_eq]
      exact plainChar_ne c hp '?' (by decide)
    · decide
  unfold pyUrlsplitL
  rw [hclean, show cleanScheme [] = [] from rfl]
  rcases hsch with rfl | rfl
  · dsimp only
    rw [splitScheme_http]
    dsimp only
    rw [if_pos (show List.take 2 ('/' :: '/' :: (netloc ++ pathOfSegs bsegs)) = ['/', '/']
      from rfl)]
    rw [show List.drop 2 ('/' :: '/' :: (netloc ++ pathOfSegs bsegs)) =
      netloc ++ pathOfSegs bsegs from rfl]
    unfold splitNetlocL
    rw [hfd]
    dsimp only [Option.getD_some]
    rw [List.take_left, List.drop_left, splitFirstL_of_absent '#' _ hnohash]
    dsimp only
    rw [splitFirstL_of_absent '?' _ hnoq]
  · dsimp only
    rw [splitScheme_https]
    dsimp only
    rw [if_pos (show List.take 2 ('/' :: '/' :: (netloc ++ pathOfSegs bsegs)) = ['/', '/']
      from rfl)]
    rw [show List.drop 2 ('/' :: '/' :: (netloc ++ pathOfSegs bsegs)) =
      netloc ++ pathOfSegs bsegs from rfl]
    unfold splitNetlocL
    rw [hfd]
    dsimp only [Option.getD_some]
    rw [List.take_left, List.drop_left, splitFirstL_of_absent '#' _ hnohash]
    dsimp only
    rw [splitFirstL_of_absent '?' _ hnoq]

theorem urlparse_good_base (scheme netloc : List Char) (bsegs : List (List Char))
    (hsch : scheme = "http".toList ∨ scheme = "https".toList)
    (hnlc : ∀ c ∈ netloc, plainNetChar c = true)
    (hbsegs : ∀ s ∈ bsegs, PlainSeg s) :
    pyUrlparseL (scheme ++ (':' :: '/' :: '/' :: (netloc ++ pathOfSegs bsegs))) [] =
      ⟨scheme, netloc, pathOfSegs bsegs, [], [], []⟩ := by
  have hsemi : (pathOfSegs bsegs).contains ';' = false := by
    apply contains_eq_false_of_all
    intro c hc
    rcases mem_pathOfSegs _ c hc with rfl | ⟨s, hs, hcs⟩
    · decide
    · exact plainChar_ne c ((hbsegs s hs).2 c hcs) ';' (by decide)
  unfold pyUrlparseL
  rw [urlsplit_good_base scheme netloc bsegs hsch hnlc hbsegs]
  dsimp only
  rw [if_neg (fun hand => by rw [hsemi] at hand; exact Bool.noConfusion hand.2)]

theorem urlparse_plain_rel (scheme rel : List Char)
    (hsch : scheme = "http".toList ∨ scheme = "https".toList)
    (hmem : ∀ c ∈ rel, plainChar c = true ∨ c = '/')
    (hhead : rel.take 2 ≠ ['/', '/']) :
    pyUrlparseL rel scheme = ⟨scheme, [], rel, [], [], []⟩ := by
  have hclean : cleanUrl rel = rel := by
    apply cleanUrl_eq_self
    intro c hc
    rcases hmem c hc with hp | rfl
    · exact plainChar_toNat c hp
    · decide
  have hcolon : List.findIdx? (fun c => c == ':') rel = none := by
    apply findIdx?_eq_none_of_all
    intro c hc
    rcases hmem c hc with hp | rfl
    · simp only [beq_eq_false_iff_ne, ne_eq]
      exact plainChar_ne c hp ':' (by decide)
    · decide
  have hnohash : ∀ c ∈ rel, (c == '#') = false := by
    intro c hc
    rcases hmem c hc with hp | rfl
    · simp only [beq_eq_false_iff_ne, ne_eq]
      exact plainChar_ne c hp '#' (by decide)
    · decide
  have hnoq : ∀ c ∈ rel, (c == '?') = false := by
    intro c hc
    rcases hmem c hc with hp | rfl
    · simp only [beq_eq_false_iff_ne, ne_eq]
      exact plainChar_ne c hp '?' (by decide)
    · decide
  have hsemi : rel.contains ';' = false := by
    apply contains_eq_false_of_all
    intro c hc
    rcases hmem c hc with hp | rfl
    · exact plainChar_ne c hp ';' (by decide)
    · decide
  have hschclean : cleanScheme scheme = scheme := by
    rcases hsch with rfl | rfl <;> rfl
  unfold pyUrlparseL pyUrlsplitL
  rw [hclean, hschclean]
  unfold splitSchemeL
  dsimp only
  rw [hcolon]
  dsimp only
  rw [if_neg hhead, splitFirstL_of_absent '#' _ hnohash]
  dsimp only
  rw [splitFirstL_of_absent '?' _ hnoq]
  dsimp only
  rw [if_neg (fun hand => by rw [hsemi] at hand; exact Bool.noConfusion hand.2)]

theorem PlainSeg.ne_dot {s : List Char} (hs : PlainSeg s) : s ≠ ['.'] ∧ s ≠ ['.', '.'] :=
  ⟨fun h => hs.not_mem '.' (by decide) (by rw [h]; simp),
    fun h => hs.not_mem '.' (by decide) (by rw [h]; simp)⟩


theorem getLastD_irrel {α : Type} (ys : List α) (h : ys ≠ []) (d1 d2 : α) :
    ys.getLastD d1 = ys.getLastD d2 := by
  rw [List.getLastD_eq_getLast?, List.getLastD_eq_getLast?, List.getLast?_eq_getLast _ h]
  rfl

theorem getLastD_append_right {α : Type} (xs ys : List α) (d : α) (h : ys ≠ []) :
    (xs ++ ys).getLastD d = ys.getLastD d := by
  induction xs generalizing d with
  | nil => rfl
  | cons a t ih =>
    rw [List.cons_append, List.getLastD_cons]
    cases t with
    | nil =>
      rw [List.nil_append, getLastD_irrel ys h a d]
    | cons b u =>
      rw [ih a, getLastD_irrel ys h a d]

theorem unparse_simple (scheme netloc path : List Char) (hn : netloc ≠ []) (hs : scheme ≠ [])
    (hp : path.take 1 = ['/']) :
    pyUrlunparseL ⟨scheme, netloc, path, [], [], []⟩ =
      scheme ++ ':' :: ('/' :: '/' :: (netloc ++ path)) := by
  unfold pyUrlunparseL pyUrlunsplitL
  dsimp only
  have hni : ∀ A B : List Char, (if ([] : List Char) ≠ [] then A else B) = B :=
    fun A B => if_neg (fun h => h rfl)
  simp only [hni]
  rw [if_pos (Or.inl hn)]
  rw [if_neg (show ¬(path ≠ [] ∧ List.take 1 path ≠ ['/']) from fun h => h.2 hp)]
  rw [if_pos hs]
  simp

theorem urljoin_good (scheme netloc : List Char) (bsegs rsegs : List (List Char))
    (hsch : scheme = "http".toList ∨ scheme = "https".toList)
    (hnl : netloc ≠ []) (hnlc : ∀ c ∈ netloc, plainNetChar c = true)
    (hbsegs : ∀ s ∈ bsegs, PlainSeg s)
    (hr0 : rsegs ≠ [])
    (hrdrop : ∀ s ∈ rsegs.dropLast, PlainSeg s)
    (hrlast : PlainSeg (rsegs.getLastD []) ∨ (rsegs.getLastD [] = [] ∧ 2 ≤ rsegs.length)) :
    pyUrljoinL (scheme ++ (':' :: '/' :: '/' :: (netloc ++ pathOfSegs bsegs)))
        (List.intercalate ['/'] rsegs) =
      scheme ++ (':' :: '/' :: '/' :: (netloc ++
        (pathOfSegs bsegs ++ List.intercalate ['/'] rsegs))) := by
  have hsegclass : ∀ s ∈ rsegs, PlainSeg s ∨ s = [] := by
    intro s hs
    rcases mem_of_dropLast_last rsegs hr0 s hs with h | rfl
    · exact Or.inl (hrdrop s h)
    · rcases hrlast with h | ⟨h, _⟩
      · exact Or.inl h
      · exact Or.inr h
  have hsegslash : ∀ s ∈ rsegs, '/' ∉ s := by
    intro s hs
    rcases hsegclass s hs with hp | rfl
    · exact hp.not_mem '/' (by decide)
    · exact List.not_mem_nil '/'
  have hrelmem : ∀ c ∈ List.intercalate ['/'] rsegs, plainChar c = true ∨ c = '/' := by
    intro c hc
    rcases mem_intercalate_slash rsegs c hc with rfl | ⟨s, hs, hcs⟩
    · exact Or.inr rfl
    · rcases hsegclass s hs with hp | rfl
      · exact Or.inl (hp.2 c hcs)
      · exact absurd hcs (List.not_mem_nil c)
  obtain ⟨c0, w, hrel_eq, hc0⟩ :
      ∃ c0 w, List.intercalate ['/'] rsegs = c0 :: w ∧ plainChar c0 = true := by
    cases rsegs with
    | nil => exact absurd rfl hr0
    | cons s0 rest =>
      have hs0 : PlainSeg s0 := by
        cases rest with
        | nil =>
          rcases hrlast with h | ⟨h, hlen⟩
          · simpa using h
          · simp at hlen
        | cons b u =>
          apply hrdrop
          simp
      rcases hseq : s0 with _ | ⟨d, s0'⟩
      · exact absurd hseq hs0.1
      · subst hseq
        cases rest with
        | nil => exact ⟨d, s0', by rw [intercalate_single], hs0.2 d (by simp)⟩
        | cons b u =>
          refine ⟨d, s0' ++ '/' :: List.intercalate ['/'] (b :: u), ?_, hs0.2 d (by simp)⟩
          rw [intercalate_cons_cons]
          simp
  have hrelne : List.intercalate ['/'] rsegs ≠ [] := by rw [hrel_eq]; simp
  have hc0slash : c0 ≠ '/' := plainChar_ne c0 hc0 '/' (by decide)
  have hhead : (List.intercalate ['/'] rsegs).take 2 ≠ ['/', '/'] := by
    rw [hrel_eq]
    intro hcontra
    rw [show (c0 :: w).take 2 = c0 :: w.take 1 from rfl] at hcontra
    exact hc0slash (List.cons.injEq _ _ _ _ ▸ hcontra).1
  have hbasene : scheme ++ (':' :: '/' :: '/' :: (netloc ++ pathOfSegs bsegs)) ≠ [] := by
    rcases hsch with rfl | rfl <;> simp
  have hrelcont : usesRelativeL.contains scheme = true := by
    rcases hsch with rfl | rfl <;> decide
  have hnetcont : usesNetlocL.contains scheme = true := by
    rcases hsch with rfl | rfl <;> decide
  have hschne : scheme ≠ [] := by
    rcases hsch with rfl | rfl <;> simp
  unfold pyUrljoinL
  rw [if_neg hbasene, if_neg hrelne]
  dsimp only
  rw [urlparse_good_base scheme netloc bsegs hsch hnlc hbsegs]
  rw [urlparse_plain_rel scheme _ hsch hrelmem hhead]
  dsimp only
  rw [if_neg (fun h => h.elim (fun h1 => h1 rfl) (fun h2 => h2 hrelcont))]
  rw [if_neg (fun h => h.2 rfl)]
  rw [if_pos hnetcont]
  rw [if_neg (fun h => hrelne h.1)]
  rw [List.splitOn_intercalate _ '/' hsegslash hr0]
  rw [splitOn_pathOfSegs bsegs (fun s hs => (hbsegs s hs).not_mem '/' (by decide))]
  have hlast1 : (([] : List Char) :: bsegs ++ [[]]).getLastD [] = [] := by
    rw [show (([] : List Char) :: bsegs ++ [[]]) = ([] :: bsegs) ++ [[]] from rfl,
      List.getLastD_concat]
  have htake1 : List.take 1 (['/'].intercalate rsegs) = [c0] := by rw [hrel_eq]; rfl
  simp only [hlast1, ne_eq, not_true_eq_false, if_false, htake1]
  have hcond : ([c0] = (['/'] : List Char)) = False := by
    simp [hc0slash]
  simp only [hcond, if_false]
  have hfilter : filterInterior ([] :: bsegs ++ [[]] ++ rsegs) = [] :: (bsegs ++ rsegs) := by
    rw [show ([] :: bsegs ++ [[]] ++ rsegs : List (List Char)) =
      [] :: (bsegs ++ [[]] ++ rsegs) from by simp]
    rw [show filterInterior ([] :: (bsegs ++ [[]] ++ rsegs)) =
      [] :: dropEmptyKeepLast (bsegs ++ [[]] ++ rsegs) from rfl]
    have hsplit : bsegs ++ [[]] ++ rsegs =
        (bsegs ++ [[]] ++ rsegs.dropLast) ++ [rsegs.getLast hr0] := by
      rw [List.append_assoc (bsegs ++ [[]]) rsegs.dropLast [rsegs.getLast hr0],
        List.dropLast_append_getLast hr0]
    rw [hsplit, dropEmptyKeepLast_append, List.filter_append, List.filter_append,
      filter_nonempty_eq_self bsegs (fun s hs => (hbsegs s hs).1),
      filter_nonempty_eq_self rsegs.dropLast (fun s hs => (hrdrop s hs).1)]
    rw [show (List.filter (fun s => !s.isEmpty) [([] : List Char)]) = [] from rfl]
    rw [List.append_nil, List.append_assoc, List.dropLast_append_getLast hr0]
  rw [hfilter]
  have hlast2 : (([] : List Char) :: (bsegs ++ rsegs)).getLastD [] = rsegs.getLastD [] := by
    rw [List.getLastD_cons]
    exact getLastD_append_right bsegs rsegs [] hr0
  have hlastdot : rsegs.getLastD [] ≠ ['.'] ∧ rsegs.getLastD [] ≠ ['.', '.'] := by
    rcases hrlast with hp | ⟨heq, _⟩
    · exact hp.ne_dot
    · rw [heq]
      exact ⟨by simp, by simp⟩
  rw [if_neg (show ¬((([] : List Char) :: (bsegs ++ rsegs)).getLastD [] = ['.'] ∨
      (([] : List Char) :: (bsegs ++ rsegs)).getLastD [] = ['.', '.']) from fun h => by
    rw [hlast2] at h
    exact h.elim hlastdot.1 hlastdot.2)]
  have hnodots : ∀ s ∈ (([] : List Char) :: (bsegs ++ rsegs)), s ≠ ['.'] ∧ s ≠ ['.', '.'] := by
    intro s hs
    rcases List.mem_cons.mp hs with rfl | hs
    · exact ⟨by simp, by simp⟩
    · rcases List.mem_append.mp hs with h | h
      · exact (hbsegs s h).ne_dot
      · rcases hsegclass s h with hp | rfl
        · exact hp.ne_dot
        · exact ⟨by simp, by simp⟩
  rw [resolveDots_no_dots ([] :: (bsegs ++ rsegs)) [] hnodots, List.nil_append]
  obtain ⟨q, qs, hbre⟩ : ∃ q qs, bsegs ++ rsegs = q :: qs := by
    cases hbre : bsegs ++ rsegs with
    | nil => exact absurd (List.append_eq_nil.mp hbre).2 hr0
    | cons q qs => exact ⟨q, qs, rfl⟩
  have hpath' : ['/'].intercalate ([] :: (bsegs ++ rsegs)) =
      '/' :: ['/'].intercalate (bsegs ++ rsegs) := by
    rw [hbre, intercalate_cons_cons, List.nil_append]
    rfl
  rw [hpath', if_neg (show ¬('/' :: ['/'].intercalate (bsegs ++ rsegs) = []) from
    fun h => List.noConfusion h)]
  rw [unparse_simple scheme netloc ('/' :: ['/'].intercalate (bsegs ++ rsegs)) hnl hschne rfl]
  rw [pathOfSegs_append_intercalate bsegs rsegs hr0,
    show (([] : List Char) :: bsegs ++ rsegs) = [] :: (bsegs ++ rsegs) from by simp, hpath']

theorem urljoin_extend (scheme netloc : List Char) (bsegs qsegs : List (List Char))
    (hsch : scheme = "http".toList ∨ scheme = "https".toList)
    (hnl : netloc ≠ []) (hnlc : ∀ c ∈ netloc, plainNetChar c = true)
    (hbsegs : ∀ s ∈ bsegs, PlainSeg s)
    (hq : ∀ s ∈ qsegs, PlainSeg s) (hq0 : qsegs ≠ []) :
    pyUrljoinL (scheme ++ (':' :: '/' :: '/' :: (netloc ++ pathOfSegs bsegs)))
        (List.intercalate ['/'] (qsegs ++ [[]])) =
      scheme ++ (':' :: '/' :: '/' :: (netloc ++ pathOfSegs (bsegs ++ qsegs))) := by
  rw [urljoin_good scheme netloc bsegs (qsegs ++ [[]]) hsch hnl hnlc hbsegs (by simp)
    (by rw [List.dropLast_concat]; exact hq)
    (Or.inr ⟨List.getLastD_concat _ _ _, by
      have := List.length_pos.mpr hq0
      rw [List.length_append]
      simp
      omega⟩)]
  rw [pathOfSegs_extend]

theorem string_ext (s t : String) (h : s.toList = t.toList) : s = t := by
  cases s with
  | mk d1 =>
    cases t with
    | mk d2 =>
      rw [show (String.mk d1).toList = d1 from rfl, show (String.mk d2).toList = d2 from rfl] at h
      rw [h]

theorem plainId_toList (s : String) (hs : plainId s = true) : PlainSeg s.toList := by
  unfold plainId at hs
  rw [Bool.and_eq_true] at hs
  constructor
  · intro h
    rw [h] at hs
    exact Bool.noConfusion hs.1
  · exact fun c hc => List.all_eq_true.mp hs.2 c hc

theorem endpoint_step (scheme netloc : List Char) (bsegs qsegs : List (List Char))
    (hsch : scheme = "http".toList ∨ scheme = "https".toList)
    (hnl : netloc ≠ []) (hnlc : ∀ c ∈ netloc, plainNetChar c = true)
    (hbsegs : ∀ s ∈ bsegs, PlainSeg s)
    (hq : ∀ s ∈ qsegs, PlainSeg s) (hq0 : qsegs ≠ [])
    (s t : String)
    (hs : s.toList = scheme ++ (':' :: '/' :: '/' :: (netloc ++ pathOfSegs bsegs)))
    (ht : t.toList = List.intercalate ['/'] (qsegs ++ [[]])) :
    (pyUrljoin s t).toList =
      scheme ++ (':' :: '/' :: '/' :: (netloc ++ pathOfSegs (bsegs ++ qsegs))) := by
  unfold pyUrljoin
  rw [List.toList_asString, hs, ht,
    urljoin_extend scheme netloc bsegs qsegs hsch hnl hnlc hbsegs hq hq0]

theorem toList_append (s t : String) : (s ++ t).toList = s.toList ++ t.toList := by
  cases s
  cases t
  rfl

theorem project_endpoint_toList (scheme netloc : List Char) (bsegs : List (List Char))
    (hsch : scheme = "http".toList ∨ scheme = "https".toList)
    (hnl : netloc ≠ []) (hnlc : ∀ c ∈ netloc, plainNetChar c = true)
    (hbsegs : ∀ s ∈ bsegs, PlainSeg s)
    (username password p : String) (hp : plainId p = true) :
    ((PersephoneClient.mk (rootOf scheme netloc bsegs) username password)._get_project_endpoint
        (JsonValue.str p)).toList =
      scheme ++ (':' :: '/' :: '/' :: (netloc ++ pathOfSegs
        (bsegs ++ ["api".toList, "v1".toList, "projects".toList, p.toList]))) := by
  have hseg1 : ∀ s ∈ bsegs ++ ["api".toList, "v1".toList], PlainSeg s := by
    intro s hs
    rcases List.mem_append.mp hs with h | h
    · exact hbsegs s h
    · rcases List.mem_cons.mp h with rfl | h
      · exact ⟨by decide, by decide⟩
      rcases List.mem_cons.mp h with rfl | h
      · exact ⟨by decide, by decide⟩
      · exact absurd h (List.not_mem_nil s)
  have hseg2 : ∀ s ∈ bsegs ++ ["api".toList, "v1".toList] ++ ["projects".toList],
      PlainSeg s := by
    intro s hs
    rcases List.mem_append.mp hs with h | h
    · exact hseg1 s h
    · rcases List.mem_cons.mp h with rfl | h
      · exact ⟨by decide, by decide⟩
      · exact absurd h (List.not_mem_nil s)
  have h0 : (rootOf scheme netloc bsegs).toList =
      scheme ++ (':' :: '/' :: '/' :: (netloc ++ pathOfSegs bsegs)) :=
    List.toList_asString _
  have hapi : ((PersephoneClient.mk (rootOf scheme netloc bsegs) username
      password)._get_api_endpoint).toList =
      scheme ++ (':' :: '/' :: '/' :: (netloc ++ pathOfSegs
        (bsegs ++ ["api".toList, "v1".toList]))) := by
    exact endpoint_step scheme netloc bsegs ["api".toList, "v1".toList] hsch hnl hnlc hbsegs
      (fun s hs => by
        rcases List.mem_cons.mp hs with rfl | h
        · exact ⟨by decide, by decide⟩
        rcases List.mem_cons.mp h with rfl | h
        · exact ⟨by decide, by decide⟩
        · exact absurd h (List.not_mem_nil s))
      (by simp) _ _ h0 (by decide)
  have hprojects : ((PersephoneClient.mk (rootOf scheme netloc bsegs) username
      password)._get_projects_endpoint).toList =
      scheme ++ (':' :: '/' :: '/' :: (netloc ++ pathOfSegs
        (bsegs ++ ["api".toList, "v1".toList] ++ ["projects".toList]))) := by
    exact endpoint_step scheme netloc (bsegs ++ ["api".toList, "v1".toList])
      ["projects".toList] hsch hnl hnlc hseg1
      (fun s hs => by
        rcases List.mem_cons.mp hs with rfl | h
        · exact ⟨by decide, by decide⟩
        · exact absurd h (List.not_mem_nil s))
      (by simp) _ _ hapi (by decide)
  have hrel : (pyStr (JsonValue.str p) ++ "/").toList =
      List.intercalate ['/'] ([p.toList] ++ [[]]) := by
    rw [show pyStr (JsonValue.str p) = p from rfl, toList_append,
      show ("/" : String).toList = ['/'] from rfl, List.singleton_append,
      intercalate_cons_cons, intercalate_single, List.append_nil]
  have := endpoint_step scheme netloc (bsegs ++ ["api".toList, "v1".toList] ++
      ["projects".toList]) [p.toList] hsch hnl hnlc hseg2
    (fun s hs => by
      rcases List.mem_cons.mp hs with rfl | h
      · exact plainId_toList p hp
      · exact absurd h (List.not_mem_nil s))
    (by simp) _ _ hprojects hrel
  rw [show ((PersephoneClient.mk (rootOf scheme netloc bsegs) username
    password)._get_project_endpoint (JsonValue.str p)) =
    pyUrljoin ((PersephoneClient.mk (rootOf scheme netloc bsegs) username
      password)._get_projects_endpoint) (pyStr (JsonValue.str p) ++ "/") from rfl, this]
  simp [List.append_assoc]

theorem builds_endpoint_toList (scheme netloc : List Char) (bsegs : List (List Char))
    (hsch : scheme = "http".toList ∨ scheme = "https".toList)
    (hnl : netloc ≠ []) (hnlc : ∀ c ∈ netloc, plainNetChar c = true)
    (hbsegs : ∀ s ∈ bsegs, PlainSeg s)
    (username password p : String) (hp : plainId p = true) :
    ((PersephoneClient.mk (rootOf scheme netloc bsegs) username password)._get_builds_endpoint
        (JsonValue.str p)).toList =
      scheme ++ (':' :: '/' :: '/' :: (netloc ++ pathOfSegs
        (bsegs ++ ["api".toList, "v1".toList, "projects".toList, p.toList]
          ++ ["builds".toList]))) := by
  have hseg3 : ∀ s ∈ bsegs ++ ["api".toList, "v1".toList, "projects".toList, p.toList],
      PlainSeg s := by
    intro s hs
    rcases List.mem_append.mp hs with h | h
    · exact hbsegs s h
    rcases List.mem_cons.mp h with rfl | h
    · exact ⟨by decide, by decide⟩
    rcases List.mem_cons.mp h with rfl | h
    · exact ⟨by decide, by decide⟩
    rcases List.mem_cons.mp h with rfl | h
    · exact ⟨by decide, by decide⟩
    rcases List.mem_cons.mp h with rfl | h
    · exact plainId_toList p hp
    · exact absurd h (List.not_mem_nil s)
  have := endpoint_step scheme netloc
    (bsegs ++ ["api".toList, "v1".toList, "projects".toList, p.toList]) ["builds".toList]
    hsch hnl hnlc hseg3
    (fun s hs => by
      rcases List.mem_cons.mp hs with rfl | h
      · exact ⟨by decide, by decide⟩
      · exact absurd h (List.not_mem_nil s))
    (by simp)
    ((PersephoneClient.mk (rootOf scheme netloc bsegs) username
      password)._get_project_endpoint (JsonValue.str p)) "builds/"
    (project_endpoint_toList scheme netloc bsegs hsch hnl hnlc hbsegs username password p hp)
    (by decide)
  exact this

theorem build_endpoint_toList (scheme netloc : List Char) (bsegs : List (List Char))
    (hsch : scheme = "http".toList ∨ scheme = "https".toList)
    (hnl : netloc ≠ []) (hnlc : ∀ c ∈ netloc, plainNetChar c = true)
    (hbsegs : ∀ s ∈ bsegs, PlainSeg s)
    (username password p b : String) (hp : plainId p = true) (hb : plainId b = true) :
    ((PersephoneClient.mk (rootOf scheme netloc bsegs) username password)._get_build_endpoint
        (JsonValue.str p) (JsonValue.str b)).toList =
      scheme ++ (':' :: '/' :: '/' :: (netloc ++ pathOfSegs
        (bsegs ++ ["api".toList, "v1".toList, "projects".toList, p.toList]
          ++ ["builds".toList] ++ [b.toList]))) := by
  have hseg4 : ∀ s ∈ bsegs ++ ["api".toList, "v1".toList, "projects".toList, p.toList]
      ++ ["builds".toList], PlainSeg s := by
    intro s hs
    rcases List.mem_append.mp hs with h | h
    · rcases List.mem_append.mp h with h | h
      · exact hbsegs s h
      rcases List.mem_cons.mp h with rfl | h
      · exact ⟨by decide, by decide⟩
      rcases List.mem_cons.mp h with rfl | h
      · exact ⟨by decide, by decide⟩
      rcases List.mem_cons.mp h with rfl | h
      · exact ⟨by decide, by decide⟩
      rcases List.mem_cons.mp h with rfl | h
      · exact plainId_toList p hp
      · exact absurd h (List.not_mem_nil s)
    · rcases List.mem_cons.mp h with rfl | h
      · exact ⟨by decide, by decide⟩
      · exact absurd h (List.not_mem_nil s)
  have hrel : (pyStr (JsonValue.str b) ++ "/").toList =
      List.intercalate ['/'] ([b.toList] ++ [[]]) := by
    rw [show pyStr (JsonValue.str b) = b from rfl, toList_append,
      show ("/" : String).toList = ['/'] from rfl, List.singleton_append,
      intercalate_cons_cons, intercalate_single, List.append_nil]
  have := endpoint_step scheme netloc
    (bsegs ++ ["api".toList, "v1".toList, "projects".toList, p.toList] ++ ["builds".toList])
    [b.toList] hsch hnl hnlc hseg4
    (fun s hs => by
      rcases List.mem_cons.mp hs with rfl | h
      · exact plainId_toList b hb
      · exact absurd h (List.not_mem_nil s))
    (by simp)
    ((PersephoneClient.mk (rootOf scheme netloc bsegs) username
      password)._get_builds_endpoint (JsonValue.str p)) (pyStr (JsonValue.str b) ++ "/")
    (builds_endpoint_toList scheme netloc bsegs hsch hnl hnlc hbsegs username password p hp)
    hrel
  exact this

-- C5 counterexample
/-- Claim C5, counterexample: for the non-empty identifiers p = "42" and
b = "x:y", `_get_build_endpoint` does not equal the relative join of
`_get_project_endpoint` with "builds/" ++ b ++ "/": `urljoin` parses "x:y/" as an
absolute URL with scheme "x" and discards the base. -/
theorem C5_counterexample :
    ("42" : String) ≠ "" ∧ ("x:y" : String) ≠ "" ∧
    exClient._get_build_endpoint (JsonValue.str "42") (JsonValue.str "x:y") ≠
      pyUrljoin (exClient._get_project_endpoint (JsonValue.str "42"))
        ("builds/" ++ "x:y" ++ "/") :=
  ⟨by decide, by decide, by decide⟩

-- C5 amended
/-- Claim C5 (amended): for every root endpoint of the form
scheme://netloc/seg1/.../segn/ (http or https scheme, non-empty netloc of
host-name characters, URL-safe path segments) and all non-empty identifiers p and
b consisting of URL-safe characters (ASCII letters, digits, hyphen, underscore),
`_get_build_endpoint p b` equals the relative join of `_get_builds_endpoint p`
with b ++ "/", which in turn equals the relative join of
`_get_project_endpoint p` with "builds/" ++ b ++ "/". -/
theorem C5_amended (scheme netloc : List Char) (bsegs : List (List Char))
    (hsch : scheme = "http".toList ∨ scheme = "https".toList)
    (hnl : netloc ≠ []) (hnlc : ∀ c ∈ netloc, plainNetChar c = true)
    (hbsegs : ∀ s ∈ bsegs, PlainSeg s)
    (username password p b : String) (hp : plainId p = true) (hb : plainId b = true) :
    (PersephoneClient.mk (rootOf scheme netloc bsegs) username password)._get_build_endpoint
        (JsonValue.str p) (JsonValue.str b) =
      pyUrljoin ((PersephoneClient.mk (rootOf scheme netloc bsegs) username
          password)._get_builds_endpoint (JsonValue.str p)) (b ++ "/") ∧
    (PersephoneClient.mk (rootOf scheme netloc bsegs) username password)._get_build_endpoint
        (JsonValue.str p) (JsonValue.str b) =
      pyUrljoin ((PersephoneClient.mk (rootOf scheme netloc bsegs) username
          password)._get_project_endpoint (JsonValue.str p)) ("builds/" ++ b ++ "/") := by
  constructor
  · rfl
  · apply string_ext
    rw [build_endpoint_toList scheme netloc bsegs hsch hnl hnlc hbsegs username password
      p b hp hb]
    have hrel2 : ("builds/" ++ b ++ "/").toList =
        List.intercalate ['/'] (["builds".toList, b.toList] ++ [[]]) := by
      rw [toList_append, toList_append,
        show ("builds/" : String).toList = "builds".toList ++ ['/'] from rfl,
        show ("/" : String).toList = ['/'] from rfl]
      rw [show (["builds".toList, b.toList] ++ [[]] : List (List Char)) =
        "builds".toList :: b.toList :: [([] : List Char)] from rfl,
        intercalate_cons_cons, intercalate_cons_cons, intercalate_single, List.append_nil]
      simp [List.append_assoc]
    have hstep := endpoint_step scheme netloc
      (bsegs ++ ["api".toList, "v1".toList, "projects".toList, p.toList])
      ["builds".toList, b.toList] hsch hnl hnlc
      (by
        intro s hs
        rcases List.mem_append.mp hs with h | h
        · exact hbsegs s h
        rcases List.mem_cons.mp h with rfl | h
        · exact ⟨by decide, by decide⟩
        rcases List.mem_cons.mp h with rfl | h
        · exact ⟨by decide, by decide⟩
        rcases List.mem_cons.mp h with rfl | h
        · exact ⟨by decide, by decide⟩
        rcases List.mem_cons.mp h with rfl | h
        · exact plainId_toList p hp
        · exact absurd h (List.not_mem_nil s))
      (by
        intro s hs
        rcases List.mem_cons.mp hs with rfl | h
        · exact ⟨by decide, by decide⟩
        rcases List.mem_cons.mp h with rfl | h
        · exact plainId_toList b hb
        · exact absurd h (List.not_mem_nil s))
      (by simp)
      ((PersephoneClient.mk (rootOf scheme netloc bsegs) username
        password)._get_project_endpoint (JsonValue.str p)) ("builds/" ++ b ++ "/")
      (project_endpoint_toList scheme netloc bsegs hsch hnl hnlc hbsegs username password p hp)
      hrel2
    rw [hstep]
    simp [List.append_assoc]

/-- Witness for C5 at the concrete root http://example.com/ with p = "42",
b = "7". -/
theorem C5_witness :
    (PersephoneClient.mk (rootOf "http".toList "example.com".toList []) "user"
        "pass")._get_build_endpoint (JsonValue.str "42") (JsonValue.str "7") =
      pyUrljoin ((PersephoneClient.mk (rootOf "http".toList "example.com".toList []) "user"
          "pass")._get_project_endpoint (JsonValue.str "42")) ("builds/" ++ "7" ++ "/") :=
  (C5_amended "http".toList "example.com".toList [] (Or.inl rfl) (by decide)
    (by decide) (by simp) "user" "pass" "42" "7" (by decide) (by decide)).2

theorem pyUrljoin_noslash (scheme netloc : List Char) (bsegs : List (List Char))
    (hsch : scheme = "http".toList ∨ scheme = "https".toList)
    (hnl : netloc ≠ []) (hnlc : ∀ c ∈ netloc, plainNetChar c = true)
    (hbsegs : ∀ s ∈ bsegs, PlainSeg s) (s t : String)
    (hs : s.toList = scheme ++ (':' :: '/' :: '/' :: (netloc ++ pathOfSegs bsegs)))
    (hf : PlainSeg t.toList) :
    pyUrljoin s t = s ++ t := by
  apply string_ext
  rw [toList_append]
  unfold pyUrljoin
  rw [List.toList_asString, hs,
    show t.toList = List.intercalate ['/'] [t.toList] from
      (intercalate_single ['/'] t.toList).symm,
    urljoin_good scheme netloc bsegs [t.toList] hsch hnl hnlc hbsegs (by simp)
      (by simp) (Or.inl (show PlainSeg (([t.toList] : List (List Char)).getLastD [])
        from hf))]
  simp [List.append_assoc]

theorem clientJsonResult_ok_iff (r : HttpResponse) (v : JsonValue) :
    clientJsonResult r = Except.ok v ↔
      ¬(400 ≤ r.status ∧ r.status < 600) ∧ r.jsonData = some v := by
  unfold clientJsonResult raiseForStatus respJson
  by_cases hs : 400 ≤ r.status ∧ r.status < 600
  · simp [hs]
  · cases hj : r.jsonData <;> simp [hs, hj]

-- C7
/-- Claim C7: `finish_build` and `fail_build` POST to the URL obtained by
relatively joining the build endpoint with "finish" (respectively "fail"), which
equals the build endpoint string with "finish"/"fail" appended — so it has no
trailing slash (its last character is letter "h"/"l") — and on success they
return the parsed JSON object of the response (`ok v` exactly when the status is
not 4xx/5xx and the body parses to `v`). -/
theorem C7_finish_fail_requests (scheme netloc : List Char) (bsegs : List (List Char))
    (hsch : scheme = "http".toList ∨ scheme = "https".toList)
    (hnl : netloc ≠ []) (hnlc : ∀ c ∈ netloc, plainNetChar c = true)
    (hbsegs : ∀ s ∈ bsegs, PlainSeg s)
    (username password p b : String) (hp : plainId p = true) (hb : plainId b = true)
    (server : HttpRequest → HttpResponse) :
    ((PersephoneClient.mk (rootOf scheme netloc bsegs) username password).finish_build
        (JsonValue.str p) (JsonValue.str b) server).2 =
      [(PersephoneClient.mk (rootOf scheme netloc bsegs) username password).finish_build_req
        (JsonValue.str p) (JsonValue.str b)] ∧
    ((PersephoneClient.mk (rootOf scheme netloc bsegs) username password).finish_build_req
        (JsonValue.str p) (JsonValue.str b)).method = Method.post ∧
    ((PersephoneClient.mk (rootOf scheme netloc bsegs) username password).finish_build_req
        (JsonValue.str p) (JsonValue.str b)).url =
      (PersephoneClient.mk (rootOf scheme netloc bsegs) username
        password)._get_build_endpoint (JsonValue.str p) (JsonValue.str b) ++ "finish" ∧
    ((PersephoneClient.mk (rootOf scheme netloc bsegs) username password).finish_build_req
        (JsonValue.str p) (JsonValue.str b)).url.toList.getLastD '/' = 'h' ∧
    (∀ v, ((PersephoneClient.mk (rootOf scheme netloc bsegs) username password).finish_build
        (JsonValue.str p) (JsonValue.str b) server).1 = Except.ok v ↔
      ¬(400 ≤ (server ((PersephoneClient.mk (rootOf scheme netloc bsegs) username
            password).finish_build_req (JsonValue.str p) (JsonValue.str b))).status ∧
          (server ((PersephoneClient.mk (rootOf scheme netloc bsegs) username
            password).finish_build_req (JsonValue.str p) (JsonValue.str b))).status < 600) ∧
        (server ((PersephoneClient.mk (rootOf scheme netloc bsegs) username
          password).finish_build_req (JsonValue.str p) (JsonValue.str b))).jsonData =
          some v) ∧
    ((PersephoneClient.mk (rootOf scheme netloc bsegs) username password).fail_build
        (JsonValue.str p) (JsonValue.str b) server).2 =
      [(PersephoneClient.mk (rootOf scheme netloc bsegs) username password).fail_build_req
        (JsonValue.str p) (JsonValue.str b)] ∧
    ((PersephoneClient.mk (rootOf scheme netloc bsegs) username password).fail_build_req
        (JsonValue.str p) (JsonValue.str b)).method = Method.post ∧
    ((PersephoneClient.mk (rootOf scheme netloc bsegs) username password).fail_build_req
        (JsonValue.str p) (JsonValue.str b)).url =
      (PersephoneClient.mk (rootOf scheme netloc bsegs) username
        password)._get_build_endpoint (JsonValue.str p) (JsonValue.str b) ++ "fail" ∧
    ((PersephoneClient.mk (rootOf scheme netloc bsegs) username password).fail_build_req
        (JsonValue.str p) (JsonValue.str b)).url.toList.getLastD '/' = 'l' ∧
    (∀ v, ((PersephoneClient.mk (rootOf scheme netloc bsegs) username password).fail_build
        (JsonValue.str p) (JsonValue.str b) server).1 = Except.ok v ↔
      ¬(400 ≤ (server ((PersephoneClient.mk (rootOf scheme netloc bsegs) username
            password).fail_build_req (JsonValue.str p) (JsonValue.str b))).status ∧
          (server ((PersephoneClient.mk (rootOf scheme netloc bsegs) username
            password).fail_build_req (JsonValue.str p) (JsonValue.str b))).status < 600) ∧
        (server ((PersephoneClient.mk (rootOf scheme netloc bsegs) username
          password).fail_build_req (JsonValue.str p) (JsonValue.str b))).jsonData =
          some v) := by
  have hbuild := build_endpoint_toList scheme netloc bsegs hsch hnl hnlc hbsegs
    username password p b hp hb
  have hfin : ((PersephoneClient.mk (rootOf scheme netloc bsegs) username
      password).finish_build_req (JsonValue.str p) (JsonValue.str b)).url =
      (PersephoneClient.mk (rootOf scheme netloc bsegs) username
        password)._get_build_endpoint (JsonValue.str p) (JsonValue.str b) ++ "finish" :=
    pyUrljoin_noslash scheme netloc
      (bsegs ++ ["api".toList, "v1".toList, "projects".toList, p.toList]
        ++ ["builds".toList] ++ [b.toList]) hsch hnl hnlc
      (by
        intro s hs
        rcases List.mem_append.mp hs with h | h
        · rcases List.mem_append.mp h with h | h
          · rcases List.mem_append.mp h with h | h
            · exact hbsegs s h
            rcases List.mem_cons.mp h with rfl | h
            · exact ⟨by decide, by decide⟩
            rcases List.mem_cons.mp h with rfl | h
            · exact ⟨by decide, by decide⟩
            rcases List.mem_cons.mp h with rfl | h
            · exact ⟨by decide, by decide⟩
            rcases List.mem_cons.mp h with rfl | h
            · exact plainId_toList p hp
            · exact absurd h (List.not_mem_nil s)
          · rcases List.mem_cons.mp h with rfl | h
            · exact ⟨by decide, by decide⟩
            · exact absurd h (List.not_mem_nil s)
        · rcases List.mem_cons.mp h with rfl | h
          · exact plainId_toList b hb
          · exact absurd h (List.not_mem_nil s))
      _ "finish" hbuild ⟨by decide, by decide⟩
  have hfl : ((PersephoneClient.mk (rootOf scheme netloc bsegs) username
      password).fail_build_req (JsonValue.str p) (JsonValue.str b)).url =
      (PersephoneClient.mk (rootOf scheme netloc bsegs) username
        password)._get_build_endpoint (JsonValue.str p) (JsonValue.str b) ++ "fail" :=
    pyUrljoin_noslash scheme netloc
      (bsegs ++ ["api".toList, "v1".toList, "projects".toList, p.toList]
        ++ ["builds".toList] ++ [b.toList]) hsch hnl hnlc
      (by
        intro s hs
        rcases List.mem_append.mp hs with h | h
        · rcases List.mem_append.mp h with h | h
          · rcases List.mem_append.mp h with h | h
            · exact hbsegs s h
            rcases List.mem_cons.mp h with rfl | h
            · exact ⟨by decide, by decide⟩
            rcases List.mem_cons.mp h with rfl | h
            · exact ⟨by decide, by decide⟩
            rcases List.mem_cons.mp h with rfl | h
            · exact ⟨by decide, by decide⟩
            rcases List.mem_cons.mp h with rfl | h
            · exact plainId_toList p hp
            · exact absurd h (List.not_mem_nil s)
          · rcases List.mem_cons.mp h with rfl | h
            · exact ⟨by decide, by decide⟩
            · exact absurd h (List.not_mem_nil s)
        · rcases List.mem_cons.mp h with rfl | h
          · exact plainId_toList b hb
          · exact absurd h (List.not_mem_nil s))
      _ "fail" hbuild ⟨by decide, by decide⟩
  refine ⟨rfl, rfl, hfin, ?_, fun v => clientJsonResult_ok_iff _ v,
    rfl, rfl, hfl, ?_, fun v => clientJsonResult_ok_iff _ v⟩
  · rw [hfin, toList_append]
    rw [getLastD_append_right]
    · rfl
    · simp [show ("finish" : String).toList = ['f', 'i', 'n', 'i', 's', 'h'] from rfl]
  · rw [hfl, toList_append]
    rw [getLastD_append_right]
    · rfl
    · simp [show ("fail" : String).toList = ['f', 'a', 'i', 'l'] from rfl]

/-!
## State-machine facts about the helper
-/

theorem raiseForStatus_shape (r : HttpResponse) :
    raiseForStatus r = Except.error (PyError.httpError r.status r.body) ∨
      raiseForStatus r = Except.ok () := by
  unfold raiseForStatus
  split <;> simp

theorem raiseForStatus_err (r : HttpResponse) (hs : 400 ≤ r.status ∧ r.status < 600) :
    raiseForStatus r = Except.error (PyError.httpError r.status r.body) := by
  unfold raiseForStatus
  simp [hs]

theorem clientJsonResult_err (r : HttpResponse) (hs : 400 ≤ r.status ∧ r.status < 600) :
    clientJsonResult r = Except.error (PyError.httpError r.status r.body) := by
  unfold clientJsonResult
  rw [raiseForStatus_err r hs]

theorem clientJsonResult_shape (r : HttpResponse) :
    clientJsonResult r = Except.error (PyError.httpError r.status r.body) ∨
      clientJsonResult r = Except.error (PyError.valueError "JSONDecodeError") ∨
      ∃ v, clientJsonResult r = Except.ok v := by
  unfold clientJsonResult respJson
  rcases raiseForStatus_shape r with hr | hr <;> rw [hr]
  · simp
  · cases hj : r.jsonData <;> simp [hj]

-- C1 counterexample
/-- Claim C1, counterexample: a helper whose `build_id` is the empty string has a
non-null `build_id`, yet `create_build` does not raise — it issues one network
request and even succeeds, because the source guards with Python truthiness
(`if self.build_id:`), not an `is not None` test. -/
theorem C1_counterexample :
    emptyIdHelper.build_id ≠ JsonValue.null ∧
    (emptyIdHelper.create_build okIdServer).2.2.length = 1 ∧
    (emptyIdHelper.create_build okIdServer).1 = Except.ok () :=
  ⟨(fun hc => nomatch hc), rfl, rfl⟩

-- C1 amended
/-- Claim C1 (amended): for every helper whose `build_id` is falsy (`None`, or
another falsy value such as the empty string), `create_build` issues exactly one
POST via the API client and on success sets `build_id` to the `id` field returned
by the server; for every helper whose `build_id` is truthy, `create_build` raises
the session-state ("build already running") `PersephoneException` and issues zero
network calls. -/
theorem C1_create_build (h : PersephoneBuildHelper) (server : HttpRequest → HttpResponse) :
    (h.build_id.truthy = true →
      h.create_build server = (Except.error (PyError.persephoneError buildRunningMsg), h, [])) ∧
    (h.build_id.truthy = false →
      ∃ req, (h.create_build server).2.2 = [req] ∧ req.method = Method.post ∧
        ((h.create_build server).1 = Except.ok () →
          ∃ build, clientJsonResult (server req) = Except.ok build ∧
            jsonGet build "id" = Except.ok (h.create_build server).2.1.build_id)) := by
  constructor
  · intro ht
    rw [create_build_spec, ht, if_pos rfl]
  · intro hf
    simp only [create_build_spec, hf, Bool.false_eq_true, if_false]
    rcases hcr : clientJsonResult (server h.createReq) with e | build
    · exact ⟨h.createReq, rfl, rfl, fun hok => nomatch hok⟩
    · rcases hid : jsonGet build "id" with e | v <;> simp only [hid]
      · exact ⟨h.createReq, rfl, rfl, fun hok => nomatch hok⟩
      · exact ⟨h.createReq, rfl, rfl, fun _ => ⟨build, hcr, hid⟩⟩

/-- Witness for C1 at a concrete helper with a truthy running build id. -/
theorem C1_witness :
    runningHelper.create_build okIdServer =
      (Except.error (PyError.persephoneError buildRunningMsg), runningHelper, []) :=
  (C1_create_build runningHelper okIdServer).1 rfl

theorem jsonGet_shape (v : JsonValue) (key : String) :
    jsonGet v key = Except.error (PyError.valueError "KeyError") ∨
      jsonGet v key = Except.error (PyError.valueError "TypeError") ∨
      ∃ x, jsonGet v key = Except.ok x := by
  unfold jsonGet
  cases v <;> simp
  case obj kvs => cases kvs.lookup key <;> simp

-- C2 counterexample
/-- Claim C2, counterexample: a helper whose `build_id` is the empty string has a
non-null `build_id`, yet `delete_build` raises the session-state error (with no
network call), because the guard is Python truthiness. -/
theorem C2_counterexample :
    emptyIdHelper.build_id ≠ JsonValue.null ∧
    emptyIdHelper.delete_build okIdServer =
      (Except.error (PyError.persephoneError noBuildMsg), emptyIdHelper, []) :=
  ⟨(fun hc => nomatch hc), rfl⟩

-- C2 amended
/-- Claim C2 (amended): each build-scoped operation (`delete_build`,
`finish_build`, `fail_build`, `upload_screenshot`) raises the session-state
`PersephoneException` if and only if `build_id` is falsy (`None` or another falsy
value such as the empty string), and in that case the operation performs no
network call and leaves the helper unchanged, with the exact "no build running"
message. -/
theorem C2_session_state_errors (h : PersephoneBuildHelper) (server : HttpRequest → HttpResponse)
    (name : String) (image_data : List Nat) (metadata : JsonValue) :
    ((∃ e, (h.delete_build server).1 = Except.error (PyError.persephoneError e)) ↔
      h.build_id.truthy = false) ∧
    ((∃ e, (h.finish_build server).1 = Except.error (PyError.persephoneError e)) ↔
      h.build_id.truthy = false) ∧
    ((∃ e, (h.fail_build server).1 = Except.error (PyError.persephoneError e)) ↔
      h.build_id.truthy = false) ∧
    ((∃ e, (h.upload_screenshot name image_data metadata server).1 =
        Except.error (PyError.persephoneError e)) ↔ h.build_id.truthy = false) ∧
    (h.build_id.truthy = false →
      h.delete_build server = (Except.error (PyError.persephoneError noBuildMsg), h, []) ∧
      h.finish_build server = (Except.error (PyError.persephoneError noBuildMsg), h, []) ∧
      h.fail_build server = (Except.error (PyError.persephoneError noBuildMsg), h, []) ∧
      h.upload_screenshot name image_data metadata server =
        (Except.error (PyError.persephoneError noBuildMsg), h, [])) := by
  refine ⟨⟨?_, ?_⟩, ⟨?_, ?_⟩, ⟨?_, ?_⟩, ⟨?_, ?_⟩, ?_⟩
  · rintro ⟨e, he⟩
    cases hbt : h.build_id.truthy
    · rfl
    · exfalso
      rw [delete_build_spec, hbt, if_pos rfl] at he
      rcases raiseForStatus_shape (server h.deleteReq) with hr | hr <;> rw [hr] at he <;>
        simp at he
  · intro hf
    exact ⟨noBuildMsg, by simp [delete_build_spec, hf]⟩
  · rintro ⟨e, he⟩
    cases hbt : h.build_id.truthy
    · rfl
    · exfalso
      rw [finish_build_spec, hbt, if_pos rfl] at he
      rcases clientJsonResult_shape (server h.finishReq) with hr | hr | ⟨v, hr⟩ <;>
        rw [hr] at he <;> simp at he
  · intro hf
    exact ⟨noBuildMsg, by simp [finish_build_spec, hf]⟩
  · rintro ⟨e, he⟩
    cases hbt : h.build_id.truthy
    · rfl
    · exfalso
      rw [fail_build_spec, hbt, if_pos rfl] at he
      rcases clientJsonResult_shape (server h.failReq) with hr | hr | ⟨v, hr⟩ <;>
        rw [hr] at he <;> simp at he
  · intro hf
    exact ⟨noBuildMsg, by simp [fail_build_spec, hf]⟩
  · rintro ⟨e, he⟩
    cases hbt : h.build_id.truthy
    · rfl
    · exfalso
      rw [upload_screenshot_spec, hbt, if_pos rfl] at he
      rcases clientJsonResult_shape (server (h.uploadReq name image_data metadata)) with
        hr | hr | ⟨v, hr⟩ <;> rw [hr] at he
      · simp at he
      · simp at he
      · rcases jsonGet_shape v "id" with hg | hg | ⟨x, hg⟩ <;> simp [hg] at he
  · intro hf
    exact ⟨noBuildMsg, by simp [upload_screenshot_spec, hf]⟩
  · intro hf
    refine ⟨?_, ?_, ?_, ?_⟩ <;> simp [delete_build_spec, finish_build_spec, fail_build_spec,
      upload_screenshot_spec, hf]

/-- Witness for C2 at a concrete idle helper. -/
theorem C2_witness :
    ((∃ e, (idleHelper.delete_build okIdServer).1 =
        Except.error (PyError.persephoneError e)) ↔ idleHelper.build_id.truthy = false) ∧
    idleHelper.delete_build okIdServer =
      (Except.error (PyError.persephoneError noBuildMsg), idleHelper, []) :=
  ⟨(C2_session_state_errors idleHelper okIdServer "n" [] JsonValue.null).1,
    ((C2_session_state_errors idleHelper okIdServer "n" [] JsonValue.null).2.2.2.2 rfl).1⟩

theorem delete_build_ok (h : PersephoneBuildHelper) (server : HttpRequest → HttpResponse)
    (hok : (h.delete_build server).1 = Except.ok ()) :
    (h.delete_build server).2.1 = { h with build_id := JsonValue.null } := by
  rw [delete_build_spec] at hok ⊢
  by_cases hbt : h.build_id.truthy = true
  · rw [if_pos hbt] at hok ⊢
    rcases raiseForStatus_shape (server h.deleteReq) with hr | hr <;> rw [hr] at hok ⊢
    exact nomatch hok
  · rw [if_neg hbt] at hok
    exact nomatch hok

theorem finish_build_ok (h : PersephoneBuildHelper) (server : HttpRequest → HttpResponse)
    (hok : (h.finish_build server).1 = Except.ok ()) :
    (h.finish_build server).2.1 = { h with build_id := JsonValue.null } := by
  rw [finish_build_spec] at hok ⊢
  by_cases hbt : h.build_id.truthy = true
  · rw [if_pos hbt] at hok ⊢
    rcases clientJsonResult_shape (server h.finishReq) with hr | hr | ⟨v, hr⟩ <;>
      rw [hr] at hok ⊢ <;> exact nomatch hok
  · rw [if_neg hbt] at hok
    exact nomatch hok

theorem fail_build_ok (h : PersephoneBuildHelper) (server : HttpRequest → HttpResponse)
    (hok : (h.fail_build server).1 = Except.ok ()) :
    (h.fail_build server).2.1 = { h with build_id := JsonValue.null } := by
  rw [fail_build_spec] at hok ⊢
  by_cases hbt : h.build_id.truthy = true
  · rw [if_pos hbt] at hok ⊢
    rcases clientJsonResult_shape (server h.failReq) with hr | hr | ⟨v, hr⟩ <;>
      rw [hr] at hok ⊢ <;> exact nomatch hok
  · rw [if_neg hbt] at hok
    exact nomatch hok

theorem create_build_state (h : PersephoneBuildHelper) (server : HttpRequest → HttpResponse) :
    (h.create_build server).2.1 = h ∨
      ∃ v, (h.create_build server).2.1 = { h with build_id := v } := by
  rw [create_build_spec]
  by_cases hbt : h.build_id.truthy = true
  · rw [if_pos hbt]
    exact Or.inl rfl
  · rw [if_neg hbt]
    rcases clientJsonResult_shape (server h.createReq) with hr | hr | ⟨v, hr⟩ <;> rw [hr]
    · exact Or.inl rfl
    · exact Or.inl rfl
    · dsimp only
      rcases jsonGet_shape v "id" with hg | hg | ⟨x, hg⟩ <;> rw [hg]
      · exact Or.inl rfl
      · exact Or.inl rfl
      · exact Or.inr ⟨x, rfl⟩

theorem delete_build_state (h : PersephoneBuildHelper) (server : HttpRequest → HttpResponse) :
    (h.delete_build server).2.1 = h ∨
      (h.delete_build server).2.1 = { h with build_id := JsonValue.null } := by
  rw [delete_build_spec]
  by_cases hbt : h.build_id.truthy = true
  · rw [if_pos hbt]
    rcases raiseForStatus_shape (server h.deleteReq) with hr | hr <;> rw [hr]
    · exact Or.inl rfl
    · exact Or.inr rfl
  · rw [if_neg hbt]
    exact Or.inl rfl

theorem finish_build_state (h : PersephoneBuildHelper) (server : HttpRequest → HttpResponse) :
    (h.finish_build server).2.1 = h ∨
      (h.finish_build server).2.1 = { h with build_id := JsonValue.null } := by
  rw [finish_build_spec]
  by_cases hbt : h.build_id.truthy = true
  · rw [if_pos hbt]
    rcases clientJsonResult_shape (server h.finishReq) with hr | hr | ⟨v, hr⟩ <;> rw [hr]
    · exact Or.inl rfl
    · exact Or.inl rfl
    · exact Or.inr rfl
  · rw [if_neg hbt]
    exact Or.inl rfl

theorem fail_build_state (h : PersephoneBuildHelper) (server : HttpRequest → HttpResponse) :
    (h.fail_build server).2.1 = h ∨
      (h.fail_build server).2.1 = { h with build_id := JsonValue.null } := by
  rw [fail_build_spec]
  by_cases hbt : h.build_id.truthy = true
  · rw [if_pos hbt]
    rcases clientJsonResult_shape (server h.failReq) with hr | hr | ⟨v, hr⟩ <;> rw [hr]
    · exact Or.inl rfl
    · exact Or.inl rfl
    · exact Or.inr rfl
  · rw [if_neg hbt]
    exact Or.inl rfl

theorem upload_screenshot_state (h : PersephoneBuildHelper) (name : String)
    (image_data : List Nat) (metadata : JsonValue) (server : HttpRequest → HttpResponse) :
    (h.upload_screenshot name image_data metadata server).2.1 = h := by
  rw [upload_screenshot_spec]
  by_cases hbt : h.build_id.truthy = true
  · rw [if_pos hbt]
    rcases clientJsonResult_shape (server (h.uploadReq name image_data metadata)) with
      hr | hr | ⟨v, hr⟩ <;> rw [hr]
    rcases jsonGet_shape v "id" with hg | hg | ⟨x, hg⟩ <;> simp [hg]
  · rw [if_neg hbt]

-- C3
/-- Claim C3: for every helper with a non-null `build_id`, a successful
`delete_build`, `finish_build` or `fail_build` resets `build_id` to `None`, and a
subsequent `upload_screenshot` on the resulting helper raises the session-state
error with no network call; moreover every operation changes at most the
`build_id` field, so the helper always tracks at most one active build. -/
theorem C3_terminal_transitions (h : PersephoneBuildHelper)
    (server server2 : HttpRequest → HttpResponse) (_hnn : h.build_id ≠ JsonValue.null)
    (name : String) (image_data : List Nat) (metadata : JsonValue) :
    ((h.delete_build server).1 = Except.ok () →
      (h.delete_build server).2.1.build_id = JsonValue.null) ∧
    ((h.finish_build server).1 = Except.ok () →
      (h.finish_build server).2.1.build_id = JsonValue.null) ∧
    ((h.fail_build server).1 = Except.ok () →
      (h.fail_build server).2.1.build_id = JsonValue.null) ∧
    ((h.finish_build server).1 = Except.ok () →
      (h.finish_build server).2.1.upload_screenshot name image_data metadata server2 =
        (Except.error (PyError.persephoneError noBuildMsg), (h.finish_build server).2.1, [])) ∧
    (h.create_build server).2.1 = { h with build_id := (h.create_build server).2.1.build_id } ∧
    (h.delete_build server).2.1 = { h with build_id := (h.delete_build server).2.1.build_id } ∧
    (h.finish_build server).2.1 = { h with build_id := (h.finish_build server).2.1.build_id } ∧
    (h.fail_build server).2.1 = { h with build_id := (h.fail_build server).2.1.build_id } ∧
    (h.upload_screenshot name image_data metadata server).2.1 =
      { h with build_id :=
        (h.upload_screenshot name image_data metadata server).2.1.build_id } := by
  refine ⟨fun hok => by rw [delete_build_ok h server hok],
    fun hok => by rw [finish_build_ok h server hok],
    fun hok => by rw [fail_build_ok h server hok],
    fun hok => by rw [finish_build_ok h server hok]; simp [upload_screenshot_spec, JsonValue.truthy],
    ?_, ?_, ?_, ?_, ?_⟩
  · rcases create_build_state h server with hs | ⟨v, hs⟩ <;> rw [hs]
  · rcases delete_build_state h server with hs | hs <;> rw [hs]
  · rcases finish_build_state h server with hs | hs <;> rw [hs]
  · rcases fail_build_state h server with hs | hs <;> rw [hs]
  · rw [upload_screenshot_state]

/-- Witness for C3: a concrete successful `finish_build` resets `build_id`. -/
theorem C3_witness :
    (runningHelper.finish_build okEmptyObjServer).1 = Except.ok () ∧
    (runningHelper.finish_build okEmptyObjServer).2.1.build_id = JsonValue.null :=
  ⟨rfl, (C3_terminal_transitions runningHelper okEmptyObjServer okEmptyObjServer
    (fun hc => nomatch hc) "n" [] JsonValue.null).2.1 rfl⟩

/-- Claim C4, counterexample: a 304 response is not 2xx, yet `get_projects`
raises no error — `requests.Response.raise_for_status` only raises for status
codes 400–599. -/
theorem C4_counterexample :
    ¬(200 ≤ (notModifiedServer demoClient.get_projects_req).status ∧
        (notModifiedServer demoClient.get_projects_req).status < 300) ∧
    (demoClient.get_projects notModifiedServer).1 = Except.ok (JsonValue.arr []) :=
  ⟨(fun hc => nomatch hc.2), rfl⟩

-- C4 amended
/-- Claim C4 (amended): a response with a 4xx or 5xx status code (400–599) makes
every API client operation raise an error exposing the response status code and
body, and such a failure does not mutate the build helper state: for every
operation the helper is returned unchanged (in particular, after a failed
`create_build` the `build_id` is still `None`). -/
theorem C4_http_errors (resp : HttpResponse) (hs : 400 ≤ resp.status ∧ resp.status < 600)
    (h : PersephoneBuildHelper) (server : HttpRequest → HttpResponse)
    (hsrv : ∀ req, 400 ≤ (server req).status ∧ (server req).status < 600)
    (name : String) (image_data : List Nat) (metadata : JsonValue) :
    raiseForStatus resp = Except.error (PyError.httpError resp.status resp.body) ∧
    clientJsonResult resp = Except.error (PyError.httpError resp.status resp.body) ∧
    (h.create_build server).2.1 = h ∧
    (h.delete_build server).2.1 = h ∧
    (h.finish_build server).2.1 = h ∧
    (h.fail_build server).2.1 = h ∧
    (h.upload_screenshot name image_data metadata server).2.1 = h ∧
    (h.build_id.truthy = false →
      (h.create_build server).1 =
        Except.error (PyError.httpError (server h.createReq).status (server h.createReq).body)) := by
  refine ⟨raiseForStatus_err resp hs, clientJsonResult_err resp hs, ?_, ?_, ?_, ?_, ?_, ?_⟩
  · rw [create_build_spec]
    by_cases hbt : h.build_id.truthy = true
    · rw [if_pos hbt]
    · rw [if_neg hbt, clientJsonResult_err _ (hsrv h.createReq)]
  · rw [delete_build_spec]
    by_cases hbt : h.build_id.truthy = true
    · rw [if_pos hbt, raiseForStatus_err _ (hsrv h.deleteReq)]
    · rw [if_neg hbt]
  · rw [finish_build_spec]
    by_cases hbt : h.build_id.truthy = true
    · rw [if_pos hbt, clientJsonResult_err _ (hsrv h.finishReq)]
    · rw [if_neg hbt]
  · rw [fail_build_spec]
    by_cases hbt : h.build_id.truthy = true
    · rw [if_pos hbt, clientJsonResult_err _ (hsrv h.failReq)]
    · rw [if_neg hbt]
  · rw [upload_screenshot_spec]
    by_cases hbt : h.build_id.truthy = true
    · rw [if_pos hbt, clientJsonResult_err _ (hsrv (h.uploadReq name image_data metadata))]
    · rw [if_neg hbt]
  · intro hf
    rw [create_build_spec, if_neg (by simp [hf]), clientJsonResult_err _ (hsrv h.createReq)]

/-- Witness for C4 at a concrete 404 response and server. -/
theorem C4_witness :
    clientJsonResult (HttpResponse.mk 404 "not found" none) =
        Except.error (PyError.httpError 404 "not found") ∧
    (idleHelper.create_build notFoundServer).2.1 = idleHelper ∧
    (idleHelper.create_build notFoundServer).1 =
      Except.error (PyError.httpError 404 "not found") := by
  have h4 := C4_http_errors (HttpResponse.mk 404 "not found" none) (by decide)
    idleHelper notFoundServer (fun _ => show 400 ≤ 404 ∧ 404 < 600 by decide) "n" []
    JsonValue.null
  exact ⟨h4.2.1, h4.2.2.1, h4.2.2.2.2.2.2.2 rfl⟩

-- C10
/-- Claim C10: when `upload_screenshot` runs with the default metadata (`None`),
the issued request still carries a "metadata" form field whose value is the
four-character JSON string "null", not an absent field. -/
theorem C10_default_metadata_field (h : PersephoneBuildHelper) (name : String)
    (image_data : List Nat) (server : HttpRequest → HttpResponse)
    (ht : h.build_id.truthy = true) :
    (h.upload_screenshot name image_data JsonValue.null server).2.2 =
      [h.uploadReq name image_data JsonValue.null] ∧
    (h.uploadReq name image_data JsonValue.null).formData =
      [("name", name), ("metadata", "null")] ∧
    ("null" : String).length = 4 := by
  refine ⟨?_, rfl, rfl⟩
  rw [upload_screenshot_spec, if_pos ht]
  rcases clientJsonResult_shape (server (h.uploadReq name image_data JsonValue.null)) with
    hr | hr | ⟨v, hr⟩ <;> rw [hr]
  rcases jsonGet_shape v "id" with hg | hg | ⟨x, hg⟩ <;> simp [hg]

/-- Witness for C10 at a concrete running helper. -/
theorem C10_witness :
    (runningHelper.upload_screenshot "a/b.png" [1, 2] JsonValue.null okIdServer).2.2 =
      [runningHelper.uploadReq "a/b.png" [1, 2] JsonValue.null] ∧
    (runningHelper.uploadReq "a/b.png" [1, 2] JsonValue.null).formData =
      [("name", "a/b.png"), ("metadata", "null")] ∧
    ("null" : String).length = 4 :=
  C10_default_metadata_field runningHelper "a/b.png" [1, 2] okIdServer rfl

/-- Witness for C7 at the concrete root http://example.com/ with p = "42",
b = "7". -/
theorem C7_witness :
    ((PersephoneClient.mk (rootOf "http".toList "example.com".toList []) "user"
        "pass").finish_build_req (JsonValue.str "42") (JsonValue.str "7")).url =
      (PersephoneClient.mk (rootOf "http".toList "example.com".toList []) "user"
        "pass")._get_build_endpoint (JsonValue.str "42") (JsonValue.str "7") ++ "finish" :=
  (C7_finish_fail_requests "http".toList "example.com".toList [] (Or.inl rfl) (by decide)
    (by decide) (by simp) "user" "pass" "42" "7" (by decide) (by decide) okIdServer).2.2.1

/-- Claim C6: for root endpoint http://example.com/ and project id "42", the
chain of relative joins resolves to http://example.com/api/v1/,
http://example.com/api/v1/projects/ and finally
http://example.com/api/v1/projects/42/. -/
theorem C6_project_endpoint_concrete :
    (PersephoneClient.mk "http://example.com/" "user" "pass")._get_api_endpoint
        = "http://example.com/api/v1/" ∧
    (PersephoneClient.mk "http://example.com/" "user" "pass")._get_projects_endpoint
        = "http://example.com/api/v1/projects/" ∧
    (PersephoneClient.mk "http://example.com/" "user" "pass")._get_project_endpoint
        (JsonValue.str "42") = "http://example.com/api/v1/projects/42/" := by
  refine ⟨?_, ?_, ?_⟩ <;> decide

/-- Claim C8: `post_screenshot` sends `name` as the form field "name", the
metadata map JSON-stringified as the form field "metadata", and the raw image
bytes as the separate multipart file field "image"; e.g. the metadata map with
"k" mapped to 1 is serialised exactly as in Python (`json.dumps`), with the
": " separator. -/
theorem C8_post_screenshot_fields (c : PersephoneClient) (pid bid : JsonValue) (name : String)
    (image_data : List Nat) (metadata : JsonValue) (server : HttpRequest → HttpResponse) :
    ∃ req, (c.post_screenshot pid bid name image_data metadata server).2 = [req] ∧
      req.formData = [("name", name), ("metadata", jsonDumps metadata)] ∧
      req.fileData = [("image", image_data)] ∧
      jsonDumps (JsonValue.obj [("k", JsonValue.num 1)]) = "\x7b\"k\": 1\x7d" := by
  refine ⟨_, rfl, rfl, rfl, by decide⟩

/-- Claim C9: every invocation of the API client `create_build` sends a JSON
body containing exactly the five fields commit_hash, branch_name,
original_build_number, original_build_url, pull_request_id, in that order, each
holding the corresponding argument — so a field not supplied (argument `None`)
is present with value `null`, as the all-null serialisation shows. -/
theorem C9_create_build_body (c : PersephoneClient) (pid ch bn obn obu pr : JsonValue)
    (server : HttpRequest → HttpResponse) :
    ∃ members : List (String × JsonValue),
      (c.create_build pid ch bn obn obu pr server).2.map (fun r => r.jsonBody)
          = [some (JsonValue.obj members)] ∧
      members.map Prod.fst = ["commit_hash", "branch_name", "original_build_number",
        "original_build_url", "pull_request_id"] ∧
      members.lookup "commit_hash" = some ch ∧
      members.lookup "branch_name" = some bn ∧
      members.lookup "original_build_number" = some obn ∧
      members.lookup "original_build_url" = some obu ∧
      members.lookup "pull_request_id" = some pr ∧
      jsonDumps (createBuildBody JsonValue.null JsonValue.null JsonValue.null JsonValue.null
          JsonValue.null)
        = "\x7b\"commit_hash\": null, \"branch_name\": null, \"original_build_number\": null, \"original_build_url\": null, \"pull_request_id\": null\x7d" := by
  refine ⟨_, rfl, rfl, ?_, ?_, ?_, ?_, ?_, by decide⟩ <;> simp [List.lookup]
